import Mathlib

/-!
# mysql-pitr-helper: the bootstrap layer (`main.go`)

A shallow embedding of `main.go`: command dispatch, the two configuration
loaders, the collector's outer loop and the recoverer's single run.

Everything `main.go` calls in other packages (the environment and YAML
parsers, the validator, `collector.New`, `Collector.Run`, `recoverer.New`,
`Recoverer.Run`, the arrival of a signal, the choice `select` makes between
two ready channels) is a field of `World`; the code of `main.go` itself is
translated statement by statement.  Time is counted in nanoseconds and only
the blocking calls (`Run`, `select`) let it advance.
-/

namespace PitrHelper

/-! ## Time -/

/-- An instant, in nanoseconds. -/
abbrev Time := Int

/-- A `time.Duration`: a signed 64-bit count of nanoseconds. -/
abbrev Duration := Int

/-- The constant `time.Second`. -/
def Second : Duration := 1000000000

/-- Reduction of an integer to the two's-complement `int64` range. -/
def wrap64 (x : Int) : Int := (x + 2 ^ 63) % 2 ^ 64 - 2 ^ 63

/-! ## Errors -/

/-- Error values made outside `main.go`: by another package (`pkg`, with the
text of the error), or one of the two errors of package `context`. -/
inductive ExtError
  | pkg (msg : String)
  | canceled
  | deadlineExceeded
  deriving DecidableEq

/-- Error values: one made outside `main.go`, or one made by `errors.New`
inside `main.go`.  A value made by `errors.New` is a fresh pointer, equal to no
error value any other call returns. -/
inductive Error
  | ext (e : ExtError)
  | new (msg : String)
  deriving DecidableEq

/-- The text the method `Error()` returns for an error made outside `main.go`. -/
def ExtError.message : ExtError → String
  | .pkg msg => msg
  | .canceled => "context canceled"
  | .deadlineExceeded => "context deadline exceeded"

/-- The text the method `Error()` of an error value returns. -/
def Error.message : Error → String
  | .ext e => e.message
  | .new msg => msg

/-- An error result of a call outside `main.go`, as a value of type `error`. -/
def ext (err : Option ExtError) : Option Error :=
  err.map Error.ext

/-! ## Contexts -/

/-- Values of `context.Context` as `main.go` builds them.  Every context made
during a run carries the number of contexts made before it, so two contexts
made by two calls are different values; a context with a deadline of its own
also carries the instant it was made at. -/
inductive Context
  | background
  | notify (id : Nat) (parent : Context)
  | withCancel (id : Nat) (parent : Context)
  | withDeadline (id : Nat) (parent : Context) (made : Time) (deadline : Time)
  deriving DecidableEq

/-- The context a derived context was made from. -/
def Context.parent : Context → Option Context
  | .background => none
  | .notify _ p => some p
  | .withCancel _ p => some p
  | .withDeadline _ p _ _ => some p

/-- The method `Deadline()`. -/
def Context.Deadline : Context → Option Time
  | .background => none
  | .notify _ p => p.Deadline
  | .withCancel _ p => p.Deadline
  | .withDeadline _ _ _ d => some d

/-- The function `context.WithDeadline(parent, d)` called at instant `now`:
when the parent already ends sooner, the child is a plain cancellable child of
the parent. -/
def WithDeadline (id : Nat) (parent : Context) (now : Time) (d : Time) : Context :=
  match parent.Deadline with
  | some cur => if cur < d then .withCancel id parent else .withDeadline id parent now d
  | none => .withDeadline id parent now d

/-- The function `context.WithTimeout(parent, timeout)` called at instant `now`. -/
def WithTimeout (id : Nat) (parent : Context) (now : Time) (timeout : Duration) : Context :=
  WithDeadline id parent now (now + timeout)

/-- The earlier of two cancellations; the first one wins a tie. -/
def earlier :
    Option (Time × ExtError) → Option (Time × ExtError) → Option (Time × ExtError)
  | none, b => b
  | some a, none => some a
  | some a, some b => if b.1 < a.1 then some b else some a

/-- When a context is cancelled and with which error, given the instant at
which SIGTERM or an interrupt arrives (if it ever does).  A child made under a
parent that is already cancelled takes the parent's error, whatever its own
deadline (`propagateCancel` runs before the deadline is looked at); otherwise
the earlier of the parent's cancellation and the deadline decides.

Cancel functions are left out.  Those `runCollector` obtains (line 54) are
deferred and `runCollector` never returns (`log.Fatalln` skips deferred calls).
The function `stop` of line 30 is deferred in `main` and runs only when `main`
returns, after a recoverer run without error (`os.Exit` on line 39 skips it
too); by then nothing in `main.go` looks at the context any more. -/
def Context.cause (signalAt : Option Time) : Context → Option (Time × ExtError)
  | .background => none
  | .notify _ p => earlier (p.cause signalAt) (signalAt.map fun t => (t, ExtError.canceled))
  | .withCancel _ p => p.cause signalAt
  | .withDeadline _ p made d =>
    match p.cause signalAt with
    | some (tc, err) =>
      if tc ≤ made then some (tc, err)
      else earlier (some (tc, err)) (some (d, ExtError.deadlineExceeded))
    | none => some (d, ExtError.deadlineExceeded)

/-- Whether the channel `Done()` of a context is closed at instant `t`. -/
def Context.done (signalAt : Option Time) (t : Time) (c : Context) : Bool :=
  match c.cause signalAt with
  | some (tc, _) => decide (tc ≤ t)
  | none => false

/-! ## Configuration values -/

/-- Modelled from the spec: the storage sections (`BackupS3`, `BackupAzure`,
`BinlogS3`, `BinlogAzure`) are declared in packages `collector` and `recoverer`;
`main.go` only passes them on, so a section is kept as its list of named values. -/
structure StorageSection where
  fields : List (String × String)
  deriving DecidableEq

/-- Modelled from the spec: `collector.Config` is declared in package
`collector`; the fields `main.go` reads are kept by name (`CollectSpanSec` is
the collection cycle length in seconds), every other field is in `others`. -/
structure CollectorConfig where
  StorageType : String
  CollectSpanSec : Int
  BackupStorageS3 : StorageSection
  BackupStorageAzure : StorageSection
  others : List (String × String)
  deriving DecidableEq

/-- Modelled from the spec: `recoverer.Config` is declared in package
`recoverer`; the fields `main.go` reads are kept by name. -/
structure RecovererConfig where
  StorageType : String
  BinlogStorageS3 : StorageSection
  BinlogStorageAzure : StorageSection
  others : List (String × String)
  deriving DecidableEq

/-- The composite literal `collector.Config{}`. -/
def CollectorConfig.zero : CollectorConfig :=
  { StorageType := "", CollectSpanSec := 0, BackupStorageS3 := ⟨[]⟩,
    BackupStorageAzure := ⟨[]⟩, others := [] }

/-- The composite literal `recoverer.Config{}`. -/
def RecovererConfig.zero : RecovererConfig :=
  { StorageType := "", BinlogStorageS3 := ⟨[]⟩, BinlogStorageAzure := ⟨[]⟩, others := [] }

/-- The expression `time.Duration(config.CollectSpanSec)*time.Second`, with the
wrap-around of `int64` arithmetic. -/
def spanDuration (config : CollectorConfig) : Duration :=
  wrap64 (wrap64 config.CollectSpanSec * Second)

/-! ## The world outside `main.go` -/

/-- Everything `main.go` obtains from outside.  A function that fills a value
through a pointer returns the value as it is after the call, next to the error. -/
structure World where
  /-- The slice `os.Args`. -/
  args : List String
  /-- The instant the process starts. -/
  startTime : Time
  /-- The instant SIGTERM or an interrupt arrives, if one does. -/
  signalAt : Option Time
  /-- The method `(*collector.Config).SetDefaults`. -/
  setDefaults : CollectorConfig → CollectorConfig
  /-- The call `env.Parse(&cfg)` on a collector configuration. -/
  envParseCollector : CollectorConfig → CollectorConfig × Option ExtError
  /-- The call `env.Parse(&cfg.BackupStorageS3)`. -/
  envParseBackupS3 : StorageSection → StorageSection × Option ExtError
  /-- The call `env.Parse(&cfg.BackupStorageAzure)`. -/
  envParseBackupAzure : StorageSection → StorageSection × Option ExtError
  /-- The call `os.ReadFile(path)`. -/
  readFile : String → String × Option ExtError
  /-- The call `yaml.Unmarshal(data, &cfg)`. -/
  yamlUnmarshal : String → CollectorConfig → CollectorConfig × Option ExtError
  /-- The call `v.Struct(cfg)` on a collector configuration. -/
  validateCollector : CollectorConfig → Option ExtError
  /-- The call `v.Struct(cfg.BackupStorageS3)`. -/
  validateBackupS3 : StorageSection → Option ExtError
  /-- The call `v.Struct(cfg.BackupStorageAzure)`. -/
  validateBackupAzure : StorageSection → Option ExtError
  /-- The call `env.Parse(&cfg)` on a recoverer configuration. -/
  envParseRecoverer : RecovererConfig → RecovererConfig × Option ExtError
  /-- The call `env.Parse(&cfg.BinlogStorageS3)`. -/
  envParseBinlogS3 : StorageSection → StorageSection × Option ExtError
  /-- The call `env.Parse(&cfg.BinlogStorageAzure)`. -/
  envParseBinlogAzure : StorageSection → StorageSection × Option ExtError
  /-- The error result of `collector.New(ctx, config)`. -/
  collectorNew : Context → CollectorConfig → Option ExtError
  /-- The `n`-th call (from 0) of `c.Run(timeout)` begun at an instant: its
  error result and the time it takes to return. -/
  collectorRun : Nat → Context → Time → Option ExtError × Nat
  /-- Which case the `n`-th `select` takes when both channels become ready at
  the same instant: `true` for `ctx.Done()`. -/
  selectTie : Nat → Bool
  /-- The error result of `recoverer.New(ctx, config)`. -/
  recovererNew : Context → RecovererConfig → Option ExtError
  /-- The call `c.Run(ctx)` of the recoverer begun at an instant: its error
  result and the time it takes to return. -/
  recovererRun : Context → Time → Option ExtError × Nat

/-! ## The configuration loaders -/

/-- The calls a configuration loader makes outside `main.go`. -/
inductive Call
  | envParseCollector
  | envParseBackupS3
  | envParseBackupAzure
  | readFile (path : String)
  | yamlUnmarshal
  | validateCollector
  | validateBackupS3
  | validateBackupAzure
  | envParseRecoverer
  | envParseBinlogS3
  | envParseBinlogAzure
  deriving DecidableEq

/-- What a configuration loader returns (`cfg, err`), with the calls it made,
in order, each with the error it returned. -/
structure Loaded (α : Type) where
  cfg : α
  err : Option Error
  calls : List (Call × Option Error)

/-- Lines 92 to 112 of `getCollectorConfig`: the configuration is read from
the environment when the path is empty, from the YAML file otherwise. -/
def loadCollectorConfig (w : World) (cfgPath : String) (cfg : CollectorConfig) :
    Loaded CollectorConfig :=
  if cfgPath.utf8ByteSize = 0 then
    -- Read from envs
    match w.envParseCollector cfg with
    | (cfg, some err) => ⟨cfg, some (.ext err), [(.envParseCollector, some (.ext err))]⟩
    | (cfg, none) =>
      match w.envParseBackupS3 cfg.BackupStorageS3 with
      | (s3, some err) =>
        ⟨{ cfg with BackupStorageS3 := s3 }, some (.ext err),
          [(.envParseCollector, none), (.envParseBackupS3, some (.ext err))]⟩
      | (s3, none) =>
        let cfg := { cfg with BackupStorageS3 := s3 }
        match w.envParseBackupAzure cfg.BackupStorageAzure with
        | (az, err) =>
          ⟨{ cfg with BackupStorageAzure := az }, ext err,
            [(.envParseCollector, none), (.envParseBackupS3, none),
              (.envParseBackupAzure, ext err)]⟩
  else
    -- Read from yaml
    match w.readFile cfgPath with
    | (_, some err) => ⟨cfg, some (.ext err), [(.readFile cfgPath, some (.ext err))]⟩
    | (cfgFile, none) =>
      match w.yamlUnmarshal cfgFile cfg with
      | (cfg, err) => ⟨cfg, ext err, [(.readFile cfgPath, none), (.yamlUnmarshal, ext err)]⟩

/-- Lines 123 to 129 of `getCollectorConfig`: the Azure section is validated
when the storage type is "azure", and the configuration is returned. -/
def validateAzure (w : World) (cfg : CollectorConfig) (calls : List (Call × Option Error)) :
    Loaded CollectorConfig :=
  if cfg.StorageType = "azure" then
    match w.validateBackupAzure cfg.BackupStorageAzure with
    | err => ⟨cfg, ext err, calls ++ [(.validateBackupAzure, ext err)]⟩
  else
    ⟨cfg, none, calls⟩

/-- Lines 114 to 129 of `getCollectorConfig`: the validation steps. -/
def validateCollectorConfig (w : World) (cfg : CollectorConfig)
    (calls : List (Call × Option Error)) : Loaded CollectorConfig :=
  match w.validateCollector cfg with
  | some err => ⟨cfg, some (.ext err), calls ++ [(.validateCollector, some (.ext err))]⟩
  | none =>
    let calls := calls ++ [(.validateCollector, none)]
    if cfg.StorageType = "s3" then
      match w.validateBackupS3 cfg.BackupStorageS3 with
      | some err => ⟨cfg, some (.ext err), calls ++ [(.validateBackupS3, some (.ext err))]⟩
      | none => validateAzure w cfg (calls ++ [(.validateBackupS3, none)])
    else
      validateAzure w cfg calls

/-- The function `getCollectorConfig`. -/
def getCollectorConfig (w : World) (cfgPath : String) : Loaded CollectorConfig :=
  let cfg := w.setDefaults CollectorConfig.zero
  let loaded := loadCollectorConfig w cfgPath cfg
  match loaded.err with
  | some err => ⟨loaded.cfg, some err, loaded.calls⟩
  | none => validateCollectorConfig w loaded.cfg loaded.calls

/-- The function `getRecovererConfig`. -/
def getRecovererConfig (w : World) : Loaded RecovererConfig :=
  let cfg := RecovererConfig.zero
  match w.envParseRecoverer cfg with
  | (cfg, some err) => ⟨cfg, some (.ext err), [(.envParseRecoverer, some (.ext err))]⟩
  | (cfg, none) =>
    if cfg.StorageType = "s3" then
      match w.envParseBinlogS3 cfg.BinlogStorageS3 with
      | (s3, err) =>
        ⟨{ cfg with BinlogStorageS3 := s3 }, ext err,
          [(.envParseRecoverer, none), (.envParseBinlogS3, ext err)]⟩
    else if cfg.StorageType = "azure" then
      match w.envParseBinlogAzure cfg.BinlogStorageAzure with
      | (az, err) =>
        ⟨{ cfg with BinlogStorageAzure := az }, ext err,
          [(.envParseRecoverer, none), (.envParseBinlogAzure, ext err)]⟩
    else
      ⟨cfg, some (Error.new "unknown STORAGE_TYPE"), [(.envParseRecoverer, none)]⟩

/-! ## What the collector's loader is to do

The steps of `getCollectorConfig` written out from the results the world
gives, without reference to the function itself. -/

/-- The calls up to and including the first one that returns an error. -/
def untilFirstError : List (Call × Option Error) → List (Call × Option Error)
  | [] => []
  | (c, none) :: rest => (c, none) :: untilFirstError rest
  | (c, some err) :: _ => [(c, some err)]

/-- The first error in a list of calls, nil when no call fails. -/
def firstError : List (Call × Option Error) → Option Error
  | [] => none
  | (_, none) :: rest => firstError rest
  | (_, some err) :: _ => some err

/-- The configuration loading yields when no load step fails: the defaults as
filled by the three environment parses when the path is empty, as filled by
`yaml.Unmarshal` from the content of the file at the path otherwise. -/
def collectorLoaded (w : World) (cfgPath : String) : CollectorConfig :=
  if cfgPath = "" then
    { (w.envParseCollector (w.setDefaults CollectorConfig.zero)).1 with
      BackupStorageS3 :=
        (w.envParseBackupS3
          (w.envParseCollector (w.setDefaults CollectorConfig.zero)).1.BackupStorageS3).1
      BackupStorageAzure :=
        (w.envParseBackupAzure
          (w.envParseCollector (w.setDefaults CollectorConfig.zero)).1.BackupStorageAzure).1 }
  else
    (w.yamlUnmarshal (w.readFile cfgPath).1 (w.setDefaults CollectorConfig.zero)).1

/-- The load steps for a path, in order, each with the error the world gives
for it: the three environment parses when the path is empty, reading the file
at the path and unmarshalling it otherwise. -/
def collectorLoadSteps (w : World) (cfgPath : String) : List (Call × Option Error) :=
  if cfgPath = "" then
    [(.envParseCollector, ext (w.envParseCollector (w.setDefaults CollectorConfig.zero)).2),
      (.envParseBackupS3,
        ext (w.envParseBackupS3
          (w.envParseCollector (w.setDefaults CollectorConfig.zero)).1.BackupStorageS3).2),
      (.envParseBackupAzure,
        ext (w.envParseBackupAzure
          (w.envParseCollector (w.setDefaults CollectorConfig.zero)).1.BackupStorageAzure).2)]
  else
    [(.readFile cfgPath, ext (w.readFile cfgPath).2),
      (.yamlUnmarshal,
        ext (w.yamlUnmarshal (w.readFile cfgPath).1 (w.setDefaults CollectorConfig.zero)).2)]

/-- The validation steps for a loaded configuration, in order, each with the
error the validator gives for it: the whole configuration, then the S3 section
when the storage type is "s3", then the Azure section when it is "azure". -/
def collectorValidateSteps (w : World) (cfg : CollectorConfig) : List (Call × Option Error) :=
  [(.validateCollector, ext (w.validateCollector cfg))]
    ++ (if cfg.StorageType = "s3" then
          [(.validateBackupS3, ext (w.validateBackupS3 cfg.BackupStorageS3))]
        else [])
    ++ (if cfg.StorageType = "azure" then
          [(.validateBackupAzure, ext (w.validateBackupAzure cfg.BackupStorageAzure))]
        else [])

/-- All the steps for a path: loading, then validation of what was loaded. -/
def collectorSteps (w : World) (cfgPath : String) : List (Call × Option Error) :=
  collectorLoadSteps w cfgPath ++ collectorValidateSteps w (collectorLoaded w cfgPath)

/-! ## The process -/

/-- What the process does that can be observed from outside `main.go`. -/
inductive Event
  /-- Line 30: `signal.NotifyContext(context.Background(), syscall.SIGTERM, os.Interrupt)`
  returned this context. -/
  | notifyContext (ctx : Context)
  /-- A call made by a configuration loader, with the error it returned. -/
  | call (c : Call) (err : Option Error)
  /-- Line 44: `getCollectorConfig(cfgPath)` returned this error. -/
  | getCollectorConfig (cfgPath : String) (err : Option Error)
  /-- Line 48: `collector.New(ctx, config)` returned this error. -/
  | collectorNew (ctx : Context) (config : CollectorConfig) (err : Option Error)
  /-- Lines 54 to 57: iteration `n` of the loop begins at instant `t` and calls
  `c.Run(ctx)`. -/
  | runStart (n : Nat) (ctx : Context) (t : Time)
  /-- Line 57: the call of `c.Run` in iteration `n` returned this error at instant `t`. -/
  | runReturn (n : Nat) (err : Option Error) (t : Time)
  /-- Lines 62 and 63: iteration `n` waits on `watched.Done()` and on a timer
  that fires at `timerAt`. -/
  | select (n : Nat) (watched : Context) (timerAt : Time)
  /-- Line 64: the `select` of iteration `n` took the case `<-ctx.Done()` at instant `t`. -/
  | ctxDone (n : Nat) (t : Time)
  /-- Line 66: the `select` of iteration `n` took the case `<-t.C` at instant `t`. -/
  | timerFired (n : Nat) (t : Time)
  /-- Line 73: `getRecovererConfig()` returned this error. -/
  | getRecovererConfig (err : Option Error)
  /-- Line 77: `recoverer.New(ctx, config)` returned this error. -/
  | recovererNew (ctx : Context) (config : RecovererConfig) (err : Option Error)
  /-- Line 82: the recoverer's `c.Run(ctx)` is called at instant `t`. -/
  | recoverStart (ctx : Context) (t : Time)
  /-- Line 82: the recoverer's `c.Run` returned this error at instant `t`. -/
  | recoverReturn (err : Option Error) (t : Time)
  /-- A line written by package `log`. -/
  | log (line : String)
  /-- Text written to `os.Stderr` by `fmt.Fprintf`. -/
  | stderr (text : String)
  /-- The process ends with this exit status. -/
  | exit (code : Nat)
  deriving DecidableEq

/-- Where the process is in `main.go`, with the local variables in scope. -/
inductive PC
  /-- Line 21: `main` begins. -/
  | main
  /-- Line 43: `runCollector(ctx, cfgPath)` begins. -/
  | runCollector (ctx : Context) (cfgPath : String)
  /-- Line 48: before `collector.New`. -/
  | collectorNew (ctx : Context) (config : CollectorConfig)
  /-- Line 53: the top of the loop, before iteration `n`. -/
  | loopHead (ctx : Context) (config : CollectorConfig) (n : Nat)
  /-- Line 57: the call `c.Run(timeout)` of iteration `n` is in progress. -/
  | inRun (ctx : Context) (config : CollectorConfig) (n : Nat) (timeout : Context)
  /-- Line 63: iteration `n` blocks in `select`. -/
  | selectWait (ctx : Context) (config : CollectorConfig) (n : Nat) (timerAt : Time)
  /-- Line 72: `runRecoverer(ctx)` begins. -/
  | runRecoverer (ctx : Context)
  /-- Line 77: before `recoverer.New`. -/
  | recovererNew (ctx : Context) (config : RecovererConfig)
  /-- Line 82: the recoverer's `c.Run(ctx)` is in progress. -/
  | inRecover (ctx : Context) (config : RecovererConfig)
  /-- Line 41: the `switch` is over and `main` returns. -/
  | mainReturn
  /-- The process has ended with this exit status. -/
  | exited (code : Nat)
  deriving DecidableEq

/-- A state of the process: where it is, the clock, how many contexts it has
made, and what it has done so far (latest event first). -/
structure State where
  pc : PC
  now : Time
  nextCtx : Nat
  trace : List Event
  deriving DecidableEq

/-- The function `fmt.Sprintln` on operands already turned into text. -/
def Sprintln (operands : List String) : String :=
  " ".intercalate operands ++ "\n"

/-- The function `log.Fatalln`: the line is logged and the process exits with status 1. -/
def Fatalln (s : State) (operands : List String) : State :=
  { s with pc := .exited 1, trace := .exit 1 :: .log (Sprintln operands) :: s.trace }

/-- Lines 22 to 26 of `main`: the command. -/
def mainCommand (args : List String) : String :=
  if h : 1 < args.length then args[1] else "collect"

/-- Lines 23 to 29 of `main`: the configuration path. -/
def mainCfgPath (args : List String) : String :=
  if h : 2 < args.length then args[2] else ""

/-- The text `main` writes for an unknown command (line 38). -/
def usage (command : String) : String :=
  "ERROR: unknown command \"" ++ command ++
    "\".\nCommands:\n  collect - collect binlogs\n  recover - recover from binlogs\n"

/-- The events of the calls a configuration loader made, latest first. -/
def callEvents (calls : List (Call × Option Error)) : List Event :=
  (calls.map fun c => Event.call c.1 c.2).reverse

/-- One step of the process. -/
def step (w : World) (s : State) : State :=
  match s.pc with
  | .main =>
    -- lines 22 to 40
    let command := mainCommand w.args
    let cfgPath := mainCfgPath w.args
    let ctx := Context.notify s.nextCtx .background
    let s := { s with nextCtx := s.nextCtx + 1, trace := .notifyContext ctx :: s.trace }
    if command = "collect" then
      { s with pc := .runCollector ctx cfgPath }
    else if command = "recover" then
      { s with pc := .runRecoverer ctx }
    else
      { s with pc := .exited 1, trace := .exit 1 :: .stderr (usage command) :: s.trace }
  | .runCollector ctx cfgPath =>
    -- lines 44 to 47
    let r := getCollectorConfig w cfgPath
    let s := { s with trace := .getCollectorConfig cfgPath r.err :: callEvents r.calls ++ s.trace }
    match r.err with
    | some err => Fatalln s ["ERROR: get config:", err.message]
    | none => { s with pc := .collectorNew ctx r.cfg }
  | .collectorNew ctx config =>
    -- lines 48 to 52
    let err := ext (w.collectorNew ctx config)
    let s := { s with trace := .collectorNew ctx config err :: s.trace }
    match err with
    | some err => Fatalln s ["ERROR: new controller:", err.message]
    | none =>
      { s with pc := .loopHead ctx config 0,
               trace := .log (Sprintln ["run binlog collector"]) :: s.trace }
  | .loopHead ctx config n =>
    -- lines 54 to 57: the timeout context is made and `c.Run` is called
    let timeout := WithTimeout s.nextCtx ctx s.now (spanDuration config)
    { s with pc := .inRun ctx config n timeout, nextCtx := s.nextCtx + 1,
             trace := .runStart n timeout s.now :: s.trace }
  | .inRun ctx config n timeout =>
    -- lines 57 to 63: `c.Run` returns
    let r := w.collectorRun n timeout s.now
    let err := ext r.1
    let now := s.now + r.2
    let s := { s with now := now, trace := .runReturn n err now :: s.trace }
    match err with
    | some err => Fatalln s ["ERROR:", err.message]
    | none =>
      let timerAt := now + max 0 (spanDuration config)
      { s with pc := .selectWait ctx config n timerAt,
               trace := .select n ctx timerAt :: s.trace }
  | .selectWait ctx config n timerAt =>
    -- lines 63 to 69: the first channel to become ready is taken
    let timer : State :=
      { s with pc := .loopHead ctx config (n + 1), now := timerAt,
               trace := .timerFired n timerAt :: s.trace }
    match ctx.cause w.signalAt with
    | some (tc, err) =>
      let readyAt := max tc s.now
      if readyAt < timerAt ∨ (readyAt = timerAt ∧ w.selectTie n = true) then
        Fatalln { s with now := readyAt, trace := .ctxDone n readyAt :: s.trace }
          ["ERROR:", err.message]
      else
        timer
    | none => timer
  | .runRecoverer ctx =>
    -- lines 73 to 76
    let r := getRecovererConfig w
    let s := { s with trace := .getRecovererConfig r.err :: callEvents r.calls ++ s.trace }
    match r.err with
    | some err => Fatalln s ["ERROR: get recoverer config:", err.message]
    | none => { s with pc := .recovererNew ctx r.cfg }
  | .recovererNew ctx config =>
    -- lines 77 to 82
    let err := ext (w.recovererNew ctx config)
    let s := { s with trace := .recovererNew ctx config err :: s.trace }
    match err with
    | some err => Fatalln s ["ERROR: new recoverer controller:", err.message]
    | none =>
      { s with pc := .inRecover ctx config,
               trace := .recoverStart ctx s.now :: .log (Sprintln ["run recover"]) :: s.trace }
  | .inRecover ctx _ =>
    -- lines 82 to 86
    let r := w.recovererRun ctx s.now
    let err := ext r.1
    let now := s.now + r.2
    let s := { s with now := now, trace := .recoverReturn err now :: s.trace }
    match err with
    | some err => Fatalln s ["ERROR: recover:", err.message]
    | none => { s with pc := .mainReturn }
  | .mainReturn =>
    -- line 41: `main` returns, the process ends with status 0
    { s with pc := .exited 0, trace := .exit 0 :: s.trace }
  | .exited _ => s

/-- The state in which the process starts. -/
def initial (w : World) : State :=
  { pc := .main, now := w.startTime, nextCtx := 0, trace := [] }

/-- The state of the process after `k` steps. -/
def exec (w : World) : Nat → State
  | 0 => initial w
  | k + 1 => step w (exec w k)

/-! ## Derived quantities -/

/-- The context `main` makes on line 30. -/
def rootCtx : Context := .notify 0 .background

/-- The configuration `runCollector` works with once loading has succeeded. -/
def loadedConfig (w : World) : CollectorConfig :=
  (getCollectorConfig w (mainCfgPath w.args)).cfg

/-- The instant iteration `n` of the collector's loop begins, when every
earlier iteration ran to its end. -/
def cycleStart (w : World) : Nat → Time
  | 0 => w.startTime
  | n + 1 =>
    cycleStart w n
      + (w.collectorRun n
          (WithTimeout (n + 1) rootCtx (cycleStart w n) (spanDuration (loadedConfig w)))
          (cycleStart w n)).2
      + max 0 (spanDuration (loadedConfig w))

/-- The context iteration `n` passes to `c.Run`. -/
def cycleCtx (w : World) (n : Nat) : Context :=
  WithTimeout (n + 1) rootCtx (cycleStart w n) (spanDuration (loadedConfig w))

/-- The instant the call of `c.Run` in iteration `n` returns. -/
def cycleReturn (w : World) (n : Nat) : Time :=
  cycleStart w n + (w.collectorRun n (cycleCtx w n) (cycleStart w n)).2

/-- The number of calls of the collector's `Run` begun in a trace. -/
def runStarts : List Event → Nat
  | [] => 0
  | .runStart _ _ _ :: tr => runStarts tr + 1
  | _ :: tr => runStarts tr

/-- The number of calls of the collector's `Run` that have returned in a trace. -/
def runReturns : List Event → Nat
  | [] => 0
  | .runReturn _ _ _ :: tr => runReturns tr + 1
  | _ :: tr => runReturns tr

/-- The number of contexts `main` has built with `signal.NotifyContext`. -/
def notifyCount : List Event → Nat
  | [] => 0
  | .notifyContext _ :: tr => notifyCount tr + 1
  | _ :: tr => notifyCount tr

/-- The error an event reports as returned by configuration loading, by
`collector.New` or `recoverer.New`, or by a `Run`. -/
def Event.returnedError : Event → Option Error
  | .getCollectorConfig _ err => err
  | .collectorNew _ _ err => err
  | .runReturn _ err _ => err
  | .getRecovererConfig err => err
  | .recovererNew _ _ err => err
  | .recoverReturn err _ => err
  | _ => none

/-- The calls only the collector's configuration loader makes. -/
def Call.ofCollector : Call → Bool
  | .envParseCollector | .envParseBackupS3 | .envParseBackupAzure
  | .readFile _ | .yamlUnmarshal
  | .validateCollector | .validateBackupS3 | .validateBackupAzure => true
  | _ => false

/-- The events of configuring, constructing or running the collector. -/
def Event.ofCollector : Event → Bool
  | .call c _ => c.ofCollector
  | .getCollectorConfig _ _ | .collectorNew _ _ _ | .runStart _ _ _ | .runReturn _ _ _
  | .select _ _ _ | .ctxDone _ _ | .timerFired _ _ => true
  | _ => false

/-- The events of configuring, constructing or running the recoverer. -/
def Event.ofRecoverer : Event → Bool
  | .call c _ => !c.ofCollector
  | .getRecovererConfig _ | .recovererNew _ _ _ | .recoverStart _ _ | .recoverReturn _ _ => true
  | _ => false

/-- Whether an event is the start of a call of the collector's `Run`. -/
def Event.isRunStart : Event → Bool
  | .runStart _ _ _ => true
  | _ => false

/-! ## Sample worlds -/

/-- A world in which everything succeeds: no arguments, a 60 second cycle,
storage type "s3", each `Run` takes one second, no signal ever arrives. -/
def calmWorld : World where
  args := ["pitr"]
  startTime := 0
  signalAt := none
  setDefaults := fun c => { c with CollectSpanSec := 60 }
  envParseCollector := fun c => ({ c with StorageType := "s3" }, none)
  envParseBackupS3 := fun s => (s, none)
  envParseBackupAzure := fun s => (s, none)
  readFile := fun _ => ("storageType: azure", none)
  yamlUnmarshal := fun _ c => ({ c with StorageType := "azure" }, none)
  validateCollector := fun _ => none
  validateBackupS3 := fun _ => none
  validateBackupAzure := fun _ => none
  envParseRecoverer := fun c => ({ c with StorageType := "s3" }, none)
  envParseBinlogS3 := fun s => (s, none)
  envParseBinlogAzure := fun s => (s, ExtError.pkg "env: required environment variable is not set")
  collectorNew := fun _ _ => none
  collectorRun := fun _ _ _ => (none, 1000000000)
  selectTie := fun _ => true
  recovererNew := fun _ _ => none
  recovererRun := fun _ _ => (none, 5000000000)


/-! ## Invariants -/

/-- What holds of the local variables, the clock and the context counter at
each place of the program. -/
def PcInv (w : World) (s : State) : Prop :=
  match s.pc with
  | .main => s.now = w.startTime ∧ s.nextCtx = 0 ∧ s.trace = []
  | .runCollector ctx cfgPath =>
    ctx = rootCtx ∧ cfgPath = mainCfgPath w.args ∧ s.nextCtx = 1 ∧ s.now = w.startTime ∧
      mainCommand w.args = "collect"
  | .collectorNew ctx config =>
    ctx = rootCtx ∧ config = loadedConfig w ∧ s.nextCtx = 1 ∧ s.now = w.startTime ∧
      mainCommand w.args = "collect"
  | .loopHead ctx config n =>
    ctx = rootCtx ∧ config = loadedConfig w ∧ s.nextCtx = n + 1 ∧ s.now = cycleStart w n ∧
      mainCommand w.args = "collect"
  | .inRun ctx config n timeout =>
    ctx = rootCtx ∧ config = loadedConfig w ∧ s.nextCtx = n + 2 ∧ s.now = cycleStart w n ∧
      timeout = cycleCtx w n ∧ mainCommand w.args = "collect"
  | .selectWait ctx config n timerAt =>
    ctx = rootCtx ∧ config = loadedConfig w ∧ s.nextCtx = n + 2 ∧ s.now = cycleReturn w n ∧
      timerAt = cycleReturn w n + max 0 (spanDuration (loadedConfig w)) ∧
      mainCommand w.args = "collect"
  | .runRecoverer ctx => ctx = rootCtx ∧ mainCommand w.args = "recover"
  | .recovererNew ctx _ => ctx = rootCtx ∧ mainCommand w.args = "recover"
  | .inRecover ctx _ => ctx = rootCtx ∧ mainCommand w.args = "recover"
  | .mainReturn => mainCommand w.args = "recover"
  | .exited _ => True

/-- What holds of each event of a run: the contexts, configurations and
instants it carries are the ones the world determines, and it belongs to the
command that was given. -/
def EventOK (w : World) : Event → Prop
  | .notifyContext ctx => ctx = rootCtx
  | .call c _ =>
    (c.ofCollector = true → mainCommand w.args = "collect") ∧
      (c.ofCollector = false → mainCommand w.args = "recover")
  | .getCollectorConfig cfgPath _ =>
    cfgPath = mainCfgPath w.args ∧ mainCommand w.args = "collect"
  | .collectorNew ctx config _ =>
    ctx = rootCtx ∧ config = loadedConfig w ∧ mainCommand w.args = "collect"
  | .runStart n ctx t =>
    ctx = cycleCtx w n ∧ t = cycleStart w n ∧ mainCommand w.args = "collect"
  | .runReturn n err t =>
    t = cycleReturn w n ∧ err = ext (w.collectorRun n (cycleCtx w n) (cycleStart w n)).1 ∧
      mainCommand w.args = "collect"
  | .select n watched timerAt =>
    watched = rootCtx ∧ timerAt = cycleReturn w n + max 0 (spanDuration (loadedConfig w)) ∧
      mainCommand w.args = "collect"
  | .ctxDone _ _ => mainCommand w.args = "collect"
  | .timerFired n t =>
    t = cycleReturn w n + max 0 (spanDuration (loadedConfig w)) ∧
      mainCommand w.args = "collect"
  | .getRecovererConfig _ => mainCommand w.args = "recover"
  | .recovererNew ctx _ _ => ctx = rootCtx ∧ mainCommand w.args = "recover"
  | .recoverStart ctx _ => ctx = rootCtx ∧ mainCommand w.args = "recover"
  | .recoverReturn _ _ => mainCommand w.args = "recover"
  | .log _ => True
  | .stderr _ => True
  | .exit _ => True

/-- What holds of an event of the collector's loop, given the events before it:
a call of `Run` numbered `n` starts when exactly `n` calls have started and
returned, the one before it without error; it returns when it is the only
call that has started and not returned. -/
def OrderOK (e : Event) (earlier : List Event) : Prop :=
  match e with
  | .runStart n _ _ =>
    runStarts earlier = n ∧ runReturns earlier = n ∧
      ∀ m, n = m + 1 → ∃ t, Event.runReturn m none t ∈ earlier
  | .runReturn n _ _ => runStarts earlier = n + 1 ∧ runReturns earlier = n
  | _ => True

/-- Every event of a trace (latest first) is in order with the events before it. -/
def Ordered (tr : List Event) : Prop :=
  ∀ later e earlier, tr = later ++ e :: earlier → OrderOK e earlier

/-- The calls of `Run` begun and returned so far, at each place of the program. -/
def SeqInv (s : State) : Prop :=
  Ordered s.trace ∧
  match s.pc with
  | .main => runStarts s.trace = 0 ∧ runReturns s.trace = 0
  | .runCollector _ _ => runStarts s.trace = 0 ∧ runReturns s.trace = 0
  | .collectorNew _ _ => runStarts s.trace = 0 ∧ runReturns s.trace = 0
  | .loopHead _ _ n =>
    runStarts s.trace = n ∧ runReturns s.trace = n ∧
      ∀ m, n = m + 1 → ∃ t, Event.runReturn m none t ∈ s.trace
  | .inRun _ _ n _ => runStarts s.trace = n + 1 ∧ runReturns s.trace = n
  | .selectWait _ _ n _ =>
    runStarts s.trace = n + 1 ∧ runReturns s.trace = n + 1 ∧
      ∃ t, Event.runReturn n none t ∈ s.trace
  | _ => runStarts s.trace = runReturns s.trace

/-- Either no call has returned an error so far, or the process has exited
with status 1 right after logging the one error that was returned. -/
def FailStop (s : State) : Prop :=
  (∀ e ∈ s.trace, e.returnedError = none) ∨
  (s.pc = .exited 1 ∧ ∃ operands e err rest,
    s.trace = .exit 1 :: .log (Sprintln (operands ++ [Error.message err])) :: e :: rest ∧
      e.returnedError = some err ∧ ∀ x ∈ rest, x.returnedError = none)

/-- The context of line 30 is built by the first step and never again. -/
def NotifyInv (s : State) : Prop :=
  (s.pc = .main ∧ notifyCount s.trace = 0) ∨ (s.pc ≠ .main ∧ notifyCount s.trace = 1)

/-- Where the process may end: with status 0 only on the recover command, with
status 1 after a log line, or with status 1 on an unknown command. -/
def ExitInv (w : World) (s : State) : Prop :=
  match s.pc with
  | .exited code =>
    (code = 0 ∧ mainCommand w.args = "recover") ∨
      (code = 1 ∧ ∃ line rest, s.trace = .exit 1 :: .log line :: rest) ∨
      (code = 1 ∧ mainCommand w.args ≠ "collect" ∧ mainCommand w.args ≠ "recover")
  | _ => True

/-! ## More sample worlds -/

/-- As `calmWorld`, but the second call of `Run` fails at once. -/
def failingWorld : World :=
  { calmWorld with
    collectorRun := fun n _ _ =>
      if n = 1 then (some (ExtError.pkg "replication stream lost"), 0) else (none, 1000000000) }

/-- As `calmWorld`, but a signal arrives thirty seconds after the start. -/
def signalWorld : World :=
  { calmWorld with signalAt := some 30000000000 }

/-- As `calmWorld`, but the command given is "frob". -/
def frobWorld : World :=
  { calmWorld with args := ["pitr", "frob", "pitr.yaml"] }

/-- As `calmWorld`, but the command given is "recover", followed by a path. -/
def recoverWorld : World :=
  { calmWorld with args := ["pitr", "recover", "pitr.yaml"] }

/-- As `calmWorld`, but the command given is "collect", followed by a path. -/
def collectWorld : World :=
  { calmWorld with args := ["pitr", "collect", "pitr.yaml"] }

/-- As `calmWorld`, but the S3 section does not pass validation. -/
def invalidWorld : World :=
  { calmWorld with validateBackupS3 := fun _ => some (ExtError.pkg "Bucket is required") }

/-- As `calmWorld`, but the cycle length is 9223372037 seconds, more than a
`time.Duration` can hold. -/
def overflowWorld : World :=
  { calmWorld with setDefaults := fun c => { c with CollectSpanSec := 9223372037 } }

/-! ## The configuration loaders: proofs -/
theorem utf8ByteSize_eq_zero (s : String) : s.utf8ByteSize = 0 ↔ s = "" := by
  cases s with
  | mk l =>
    cases l with
    | nil => simp [String.utf8ByteSize, String.utf8ByteSize.go]
    | cons c cs =>
      have h := Char.utf8Size_pos c
      simp [String.utf8ByteSize, String.utf8ByteSize.go, String.ext_iff]
      omega

theorem ext_eq_none (e : Option ExtError) : ext e = none ↔ e = none := by
  cases e <;> simp [ext]

theorem load_chain (w : World) (cfgPath : String) (cfg : CollectorConfig) :
    ((loadCollectorConfig w cfgPath cfg).calls.getLast?.map Prod.snd =
        some (loadCollectorConfig w cfgPath cfg).err) ∧
      ∀ x ∈ (loadCollectorConfig w cfgPath cfg).calls.dropLast, x.2 = none := by
  unfold loadCollectorConfig
  repeat' split
  all_goals simp_all [List.dropLast]

theorem all_none_concat (calls : List (Call × Option Error)) (c : Call)
    (h : ∀ x ∈ calls, x.2 = none) : ∀ x ∈ calls ++ [(c, none)], x.2 = none := by
  intro x hx
  rcases List.mem_append.1 hx with hx | hx
  · exact h x hx
  · rw [List.mem_singleton.1 hx]

theorem validateAzure_chain (w : World) (cfg : CollectorConfig) (calls : List (Call × Option Error))
    (c : Call) (h : ∀ x ∈ calls, x.2 = none) :
    (((validateAzure w cfg (calls ++ [(c, none)])).calls.getLast?.map Prod.snd =
        some (validateAzure w cfg (calls ++ [(c, none)])).err) ∧
      ∀ x ∈ (validateAzure w cfg (calls ++ [(c, none)])).calls.dropLast, x.2 = none) := by
  unfold validateAzure
  split
  · simp only [List.getLast?_concat, List.dropLast_concat]
    exact ⟨rfl, all_none_concat calls c h⟩
  · simp only [List.getLast?_concat, List.dropLast_concat]
    exact ⟨rfl, h⟩

theorem validate_chain (w : World) (cfg : CollectorConfig) (calls : List (Call × Option Error))
    (h : ∀ x ∈ calls, x.2 = none) :
    ((validateCollectorConfig w cfg calls).calls.getLast?.map Prod.snd =
        some (validateCollectorConfig w cfg calls).err) ∧
      ∀ x ∈ (validateCollectorConfig w cfg calls).calls.dropLast, x.2 = none := by
  unfold validateCollectorConfig
  split
  · simp only [List.getLast?_concat, List.dropLast_concat]
    exact ⟨rfl, h⟩
  · simp only
    split
    · split
      · simp only [List.getLast?_concat, List.dropLast_concat]
        exact ⟨rfl, all_none_concat calls _ h⟩
      · exact validateAzure_chain w cfg _ _ (all_none_concat calls _ h)
    · exact validateAzure_chain w cfg calls _ h

theorem load_calls_none (w : World) (cfgPath : String) (cfg : CollectorConfig)
    (h : (loadCollectorConfig w cfgPath cfg).err = none) :
    ∀ x ∈ (loadCollectorConfig w cfgPath cfg).calls, x.2 = none := by
  have h1 := load_chain w cfgPath cfg
  intro x hx
  rcases List.eq_nil_or_concat (loadCollectorConfig w cfgPath cfg).calls with h0 | ⟨l, b, h0⟩
  · simp [h0] at hx
  · rw [h0] at h1 hx
    simp only [List.concat_eq_append, List.getLast?_concat, List.dropLast_concat, Option.map_some', Option.some.injEq] at h1
    simp only [List.concat_eq_append, List.mem_append, List.mem_singleton] at hx
    rcases hx with hx | hx
    · exact h1.2 x hx
    · rw [hx, h1.1, h]

theorem getCollectorConfig_chain (w : World) (cfgPath : String) :
    ((getCollectorConfig w cfgPath).calls.getLast?.map Prod.snd =
        some (getCollectorConfig w cfgPath).err) ∧
      ∀ x ∈ (getCollectorConfig w cfgPath).calls.dropLast, x.2 = none := by
  unfold getCollectorConfig
  simp only
  split
  · rename_i err he
    simp only
    rw [← he]
    exact load_chain w cfgPath _
  · rename_i he
    exact validate_chain w _ _ (load_calls_none w cfgPath _ he)

theorem load_env_calls (w : World) (cfg : CollectorConfig) :
    (∃ e rest, (loadCollectorConfig w "" cfg).calls = (Call.envParseCollector, e) :: rest) ∧
      ∀ x ∈ (loadCollectorConfig w "" cfg).calls,
        x.1 = Call.envParseCollector ∨ x.1 = Call.envParseBackupS3 ∨
          x.1 = Call.envParseBackupAzure := by
  unfold loadCollectorConfig
  rw [if_pos (by decide)]
  repeat' split
  all_goals simp

theorem load_yaml_calls (w : World) (cfgPath : String) (cfg : CollectorConfig)
    (hp : cfgPath ≠ "") :
    (∃ e rest, (loadCollectorConfig w cfgPath cfg).calls = (Call.readFile cfgPath, e) :: rest) ∧
      ∀ x ∈ (loadCollectorConfig w cfgPath cfg).calls,
        x.1 = Call.readFile cfgPath ∨ x.1 = Call.yamlUnmarshal := by
  unfold loadCollectorConfig
  rw [if_neg (by rw [utf8ByteSize_eq_zero]; exact hp)]
  repeat' split
  all_goals simp

theorem validateAzure_calls (w : World) (cfg : CollectorConfig)
    (calls : List (Call × Option Error)) :
    ∃ vs, (validateAzure w cfg calls).calls = calls ++ vs ∧
      ∀ x ∈ vs, x.1 = Call.validateBackupAzure := by
  unfold validateAzure
  split
  · exact ⟨[(Call.validateBackupAzure, _)], rfl, by simp⟩
  · exact ⟨[], by simp, by simp⟩

theorem validate_calls (w : World) (cfg : CollectorConfig)
    (calls : List (Call × Option Error)) :
    ∃ vs, (validateCollectorConfig w cfg calls).calls = calls ++ vs ∧
      ∀ x ∈ vs, x.1 = Call.validateCollector ∨ x.1 = Call.validateBackupS3 ∨
        x.1 = Call.validateBackupAzure := by
  unfold validateCollectorConfig
  split
  · exact ⟨[(Call.validateCollector, _)], rfl, by simp⟩
  · simp only
    split
    · split
      · rename_i err he2
        exact ⟨[(Call.validateCollector, none), (Call.validateBackupS3, some (.ext err))],
          by simp, by simp⟩
      · obtain ⟨vs, h1, h2⟩ := validateAzure_calls w cfg
          (calls ++ [(Call.validateCollector, none)] ++ [(Call.validateBackupS3, none)])
        refine ⟨[(Call.validateCollector, none), (Call.validateBackupS3, none)] ++ vs, ?_, ?_⟩
        · rw [h1]; simp
        · intro x hx
          simp only [List.mem_append, List.mem_cons, List.mem_singleton, List.not_mem_nil,
            or_false] at hx
          rcases hx with (hx | hx) | hx
          · simp [hx]
          · simp [hx]
          · simp [h2 x hx]
    · obtain ⟨vs, h1, h2⟩ := validateAzure_calls w cfg (calls ++ [(Call.validateCollector, none)])
      refine ⟨[(Call.validateCollector, none)] ++ vs, ?_, ?_⟩
      · rw [h1]; simp
      · intro x hx
        simp only [List.mem_append, List.mem_singleton] at hx
        rcases hx with hx | hx
        · simp [hx]
        · simp [h2 x hx]

theorem getCollectorConfig_calls (w : World) (cfgPath : String) :
    ∃ vs, (getCollectorConfig w cfgPath).calls =
        (loadCollectorConfig w cfgPath (w.setDefaults CollectorConfig.zero)).calls ++ vs ∧
      ∀ x ∈ vs, x.1 = Call.validateCollector ∨ x.1 = Call.validateBackupS3 ∨
        x.1 = Call.validateBackupAzure := by
  unfold getCollectorConfig
  simp only
  split
  · exact ⟨[], by simp, by simp⟩
  · exact validate_calls w _ _

theorem validateAzure_ok (w : World) (cfg : CollectorConfig)
    (calls : List (Call × Option Error)) (h : (validateAzure w cfg calls).err = none) :
    (validateAzure w cfg calls).cfg = cfg ∧
      (cfg.StorageType = "azure" → w.validateBackupAzure cfg.BackupStorageAzure = none) := by
  unfold validateAzure at h ⊢
  split
  · rename_i ha
    rw [if_pos ha] at h
    exact ⟨rfl, fun _ => (ext_eq_none _).1 h⟩
  · rename_i ha
    exact ⟨rfl, fun h2 => absurd h2 ha⟩

theorem validate_ok (w : World) (cfg : CollectorConfig)
    (calls : List (Call × Option Error)) (h : (validateCollectorConfig w cfg calls).err = none) :
    (validateCollectorConfig w cfg calls).cfg = cfg ∧
      w.validateCollector cfg = none ∧
      (cfg.StorageType = "s3" → w.validateBackupS3 cfg.BackupStorageS3 = none) ∧
      (cfg.StorageType = "azure" → w.validateBackupAzure cfg.BackupStorageAzure = none) := by
  unfold validateCollectorConfig at h ⊢
  split
  · rename_i err he
    rw [he] at h
    simp at h
  · rename_i he
    rw [he] at h
    simp only at h ⊢
    split
    · rename_i hs
      rw [if_pos hs] at h
      split
      · rename_i err he2
        rw [he2] at h
        simp at h
      · rename_i he2
        rw [he2] at h
        simp only at h
        have h3 := validateAzure_ok w cfg _ h
        exact ⟨h3.1, he, fun _ => he2, h3.2⟩
    · rename_i hs
      rw [if_neg hs] at h
      have h3 := validateAzure_ok w cfg _ h
      exact ⟨h3.1, he, fun h2 => absurd h2 hs, h3.2⟩

theorem getCollectorConfig_ok (w : World) (cfgPath : String)
    (h : (getCollectorConfig w cfgPath).err = none) :
    (loadCollectorConfig w cfgPath (w.setDefaults CollectorConfig.zero)).err = none ∧
      (getCollectorConfig w cfgPath).cfg =
        (loadCollectorConfig w cfgPath (w.setDefaults CollectorConfig.zero)).cfg ∧
      w.validateCollector (getCollectorConfig w cfgPath).cfg = none ∧
      ((getCollectorConfig w cfgPath).cfg.StorageType = "s3" →
        w.validateBackupS3 (getCollectorConfig w cfgPath).cfg.BackupStorageS3 = none) ∧
      ((getCollectorConfig w cfgPath).cfg.StorageType = "azure" →
        w.validateBackupAzure (getCollectorConfig w cfgPath).cfg.BackupStorageAzure = none) := by
  unfold getCollectorConfig at h ⊢
  simp only at h ⊢
  split
  · rename_i err he
    rw [he] at h
    simp at h
  · rename_i he
    rw [he] at h
    simp only at h
    have h3 := validate_ok w _ _ h
    rw [h3.1]
    exact ⟨he, rfl, h3.2⟩

theorem load_env_ok (w : World) (cfg : CollectorConfig)
    (h : (loadCollectorConfig w "" cfg).err = none) :
    (w.envParseCollector cfg).2 = none ∧
      (w.envParseBackupS3 (w.envParseCollector cfg).1.BackupStorageS3).2 = none ∧
      (w.envParseBackupAzure (w.envParseCollector cfg).1.BackupStorageAzure).2 = none ∧
      (loadCollectorConfig w "" cfg).cfg =
        { (w.envParseCollector cfg).1 with
          BackupStorageS3 := (w.envParseBackupS3 (w.envParseCollector cfg).1.BackupStorageS3).1
          BackupStorageAzure :=
            (w.envParseBackupAzure (w.envParseCollector cfg).1.BackupStorageAzure).1 } := by
  unfold loadCollectorConfig at h ⊢
  rw [if_pos (by decide)] at h ⊢
  repeat' split at h
  all_goals simp_all [ext_eq_none]

theorem load_yaml_ok (w : World) (cfgPath : String) (cfg : CollectorConfig) (hp : cfgPath ≠ "")
    (h : (loadCollectorConfig w cfgPath cfg).err = none) :
    (w.readFile cfgPath).2 = none ∧
      w.yamlUnmarshal (w.readFile cfgPath).1 cfg =
        ((loadCollectorConfig w cfgPath cfg).cfg, none) := by
  unfold loadCollectorConfig at h ⊢
  rw [if_neg (by rw [utf8ByteSize_eq_zero]; exact hp)] at h ⊢
  repeat' split at h
  all_goals simp_all [ext_eq_none]

theorem steps_append_some (a b : List (Call × Option Error)) (e : Error)
    (h : firstError a = some e) :
    untilFirstError (a ++ b) = untilFirstError a ∧ firstError (a ++ b) = some e := by
  induction a with
  | nil => simp [firstError] at h
  | cons x a ih =>
    obtain ⟨c, _ | e1⟩ := x
    · simp only [firstError] at h
      simp [untilFirstError, firstError, ih h]
    · simp only [firstError] at h
      simp [untilFirstError, firstError, h]

theorem steps_append_none (a b : List (Call × Option Error)) (h : firstError a = none) :
    untilFirstError (a ++ b) = a ++ untilFirstError b ∧ firstError (a ++ b) = firstError b ∧
      untilFirstError a = a := by
  induction a with
  | nil => simp [untilFirstError]
  | cons x a ih =>
    obtain ⟨c, _ | e1⟩ := x
    · simp only [firstError] at h
      simp [untilFirstError, firstError, ih h]
    · simp [firstError] at h

theorem load_steps (w : World) (cfgPath : String) :
    (loadCollectorConfig w cfgPath (w.setDefaults CollectorConfig.zero)).calls =
        untilFirstError (collectorLoadSteps w cfgPath) ∧
      (loadCollectorConfig w cfgPath (w.setDefaults CollectorConfig.zero)).err =
        firstError (collectorLoadSteps w cfgPath) ∧
      ((loadCollectorConfig w cfgPath (w.setDefaults CollectorConfig.zero)).err = none →
        (loadCollectorConfig w cfgPath (w.setDefaults CollectorConfig.zero)).cfg =
          collectorLoaded w cfgPath) := by
  by_cases hp : cfgPath = ""
  · subst hp
    unfold loadCollectorConfig collectorLoadSteps collectorLoaded
    rw [if_pos (by decide), if_pos rfl, if_pos rfl]
    rcases h1 : w.envParseCollector (w.setDefaults CollectorConfig.zero) with ⟨c1, _ | e1⟩
    · rcases h2 : w.envParseBackupS3 c1.BackupStorageS3 with ⟨c2, _ | e2⟩
      · rcases h3 : w.envParseBackupAzure c1.BackupStorageAzure with ⟨c3, _ | e3⟩
        · simp [h2, h3, ext, untilFirstError, firstError]
        · simp [h2, h3, ext, untilFirstError, firstError]
      · simp [h2, ext, untilFirstError, firstError]
    · simp [ext, untilFirstError, firstError]
  · unfold loadCollectorConfig collectorLoadSteps collectorLoaded
    rw [if_neg (by rw [utf8ByteSize_eq_zero]; exact hp), if_neg hp, if_neg hp]
    rcases h1 : w.readFile cfgPath with ⟨f, _ | e1⟩
    · rcases h2 : w.yamlUnmarshal f (w.setDefaults CollectorConfig.zero) with ⟨c2, _ | e2⟩
      · simp [h2, ext, untilFirstError, firstError]
      · simp [h2, ext, untilFirstError, firstError]
    · simp [ext, untilFirstError, firstError]

theorem validate_steps (w : World) (cfg : CollectorConfig)
    (calls : List (Call × Option Error)) :
    (validateCollectorConfig w cfg calls).calls =
        calls ++ untilFirstError (collectorValidateSteps w cfg) ∧
      (validateCollectorConfig w cfg calls).err = firstError (collectorValidateSteps w cfg) ∧
      (validateCollectorConfig w cfg calls).cfg = cfg := by
  unfold validateCollectorConfig validateAzure collectorValidateSteps
  rcases h1 : w.validateCollector cfg with _ | e1
  · by_cases hs : cfg.StorageType = "s3"
    · have ha : ¬ cfg.StorageType = "azure" := by rw [hs]; decide
      rcases h2 : w.validateBackupS3 cfg.BackupStorageS3 with _ | e2
      · simp [hs, ha, h2, ext, untilFirstError, firstError]
      · simp [hs, ha, h2, ext, untilFirstError, firstError]
    · by_cases ha : cfg.StorageType = "azure"
      · rcases h3 : w.validateBackupAzure cfg.BackupStorageAzure with _ | e3
        · simp [hs, ha, h3, ext, untilFirstError, firstError]
        · simp [hs, ha, h3, ext, untilFirstError, firstError]
      · simp [hs, ha, ext, untilFirstError, firstError]
  · simp [ext, untilFirstError, firstError]

theorem getCollectorConfig_steps (w : World) (cfgPath : String) :
    (getCollectorConfig w cfgPath).calls = untilFirstError (collectorSteps w cfgPath) ∧
      (getCollectorConfig w cfgPath).err = firstError (collectorSteps w cfgPath) ∧
      (firstError (collectorLoadSteps w cfgPath) = none →
        (getCollectorConfig w cfgPath).cfg = collectorLoaded w cfgPath) := by
  obtain ⟨l1, l2, l3⟩ := load_steps w cfgPath
  unfold getCollectorConfig collectorSteps
  simp only
  split
  · rename_i err he
    rw [l2] at he
    obtain ⟨a1, a2⟩ := steps_append_some _ (collectorValidateSteps w (collectorLoaded w cfgPath))
      err he
    refine ⟨by rw [a1, l1], by rw [a2], ?_⟩
    intro hn
    rw [hn] at he
    exact absurd he (by simp)
  · rename_i he
    have hcfg := l3 he
    rw [l2] at he
    obtain ⟨a1, a2, a3⟩ :=
      steps_append_none _ (collectorValidateSteps w (collectorLoaded w cfgPath)) he
    obtain ⟨v1, v2, v3⟩ := validate_steps w
      (loadCollectorConfig w cfgPath (w.setDefaults CollectorConfig.zero)).cfg
      (loadCollectorConfig w cfgPath (w.setDefaults CollectorConfig.zero)).calls
    rw [hcfg] at v1 v2 v3
    refine ⟨?_, ?_, fun _ => ?_⟩
    · rw [hcfg, v1, a1, l1, a3]
    · rw [hcfg, v2, a2]
    · rw [hcfg, v3]

/-- C8: `getCollectorConfig` reads the environment exactly when the path is
empty and the YAML file at that path otherwise; a nil error means that loading
succeeded, that the whole configuration passed validation and that the section
of the selected provider ("s3" or "azure") passed validation too; the error
returned is the one of the last call made, and no call before it failed.
Against the world: the calls made are the load and validation steps up to and
including the first whose parser, reader or validator returns an error, the
error returned is that very error (nil when there is none), and when loading
does not fail the configuration returned is the one the parsers produced. -/
theorem getCollectorConfig_contract (w : World) (cfgPath : String) :
    (cfgPath = "" →
      (∃ e rest, (getCollectorConfig w cfgPath).calls = (Call.envParseCollector, e) :: rest) ∧
      ∀ x ∈ (getCollectorConfig w cfgPath).calls,
        x.1 ≠ Call.yamlUnmarshal ∧ ∀ p, x.1 ≠ Call.readFile p) ∧
    (cfgPath ≠ "" →
      (∃ e rest, (getCollectorConfig w cfgPath).calls = (Call.readFile cfgPath, e) :: rest) ∧
      ∀ x ∈ (getCollectorConfig w cfgPath).calls,
        x.1 ≠ Call.envParseCollector ∧ x.1 ≠ Call.envParseBackupS3 ∧
          x.1 ≠ Call.envParseBackupAzure ∧ ∀ p, x.1 = Call.readFile p → p = cfgPath) ∧
    ((getCollectorConfig w cfgPath).err = none →
      (cfgPath = "" →
        (w.envParseCollector (w.setDefaults CollectorConfig.zero)).2 = none ∧
        (w.envParseBackupS3
          (w.envParseCollector (w.setDefaults CollectorConfig.zero)).1.BackupStorageS3).2 = none ∧
        (w.envParseBackupAzure
          (w.envParseCollector (w.setDefaults CollectorConfig.zero)).1.BackupStorageAzure).2
            = none) ∧
      (cfgPath ≠ "" →
        (w.readFile cfgPath).2 = none ∧
        (w.yamlUnmarshal (w.readFile cfgPath).1 (w.setDefaults CollectorConfig.zero)).2 = none) ∧
      w.validateCollector (getCollectorConfig w cfgPath).cfg = none ∧
      ((getCollectorConfig w cfgPath).cfg.StorageType = "s3" →
        w.validateBackupS3 (getCollectorConfig w cfgPath).cfg.BackupStorageS3 = none) ∧
      ((getCollectorConfig w cfgPath).cfg.StorageType = "azure" →
        w.validateBackupAzure (getCollectorConfig w cfgPath).cfg.BackupStorageAzure = none)) ∧
    ((getCollectorConfig w cfgPath).calls.getLast?.map Prod.snd =
      some (getCollectorConfig w cfgPath).err) ∧
    (∀ x ∈ (getCollectorConfig w cfgPath).calls.dropLast, x.2 = none) ∧
    (getCollectorConfig w cfgPath).calls = untilFirstError (collectorSteps w cfgPath) ∧
    (getCollectorConfig w cfgPath).err = firstError (collectorSteps w cfgPath) ∧
    (firstError (collectorLoadSteps w cfgPath) = none →
      (getCollectorConfig w cfgPath).cfg = collectorLoaded w cfgPath) := by
  obtain ⟨vs, hcalls, hvs⟩ := getCollectorConfig_calls w cfgPath
  refine ⟨?_, ?_, ?_, (getCollectorConfig_chain w cfgPath).1,
    (getCollectorConfig_chain w cfgPath).2, (getCollectorConfig_steps w cfgPath).1,
    (getCollectorConfig_steps w cfgPath).2.1, (getCollectorConfig_steps w cfgPath).2.2⟩
  · intro hp
    subst hp
    obtain ⟨⟨e, rest, h1⟩, h2⟩ := load_env_calls w (w.setDefaults CollectorConfig.zero)
    refine ⟨⟨e, rest ++ vs, by rw [hcalls, h1]; rfl⟩, ?_⟩
    intro x hx
    rw [hcalls] at hx
    rcases List.mem_append.1 hx with hx | hx
    · rcases h2 x hx with h | h | h <;> simp [h]
    · rcases hvs x hx with h | h | h <;> simp [h]
  · intro hp
    obtain ⟨⟨e, rest, h1⟩, h2⟩ := load_yaml_calls w cfgPath (w.setDefaults CollectorConfig.zero) hp
    refine ⟨⟨e, rest ++ vs, by rw [hcalls, h1]; rfl⟩, ?_⟩
    intro x hx
    rw [hcalls] at hx
    rcases List.mem_append.1 hx with hx | hx
    · rcases h2 x hx with h | h
      · simp only [h, ne_eq, reduceCtorEq, not_false_eq_true, Call.readFile.injEq, true_and]
        intro p hpe
        exact hpe.symm
      · simp [h]
    · rcases hvs x hx with h | h | h <;> simp [h]
  · intro herr
    obtain ⟨hl, _, hv⟩ := getCollectorConfig_ok w cfgPath herr
    refine ⟨?_, ?_, hv⟩
    · intro hp
      subst hp
      have h3 := load_env_ok w _ hl
      exact ⟨h3.1, h3.2.1, h3.2.2.1⟩
    · intro hp
      have h3 := load_yaml_ok w cfgPath _ hp hl
      exact ⟨h3.1, by rw [h3.2]⟩

/-- C8 at sample worlds: with an empty path the environment is read and the
configuration returned is the parsed one, of storage type "s3"; when the S3
section does not pass validation, the validator's error is the one returned. -/
theorem getCollectorConfig_contract_witness :
    (getCollectorConfig calmWorld "").err = none ∧
      calmWorld.validateBackupS3 (getCollectorConfig calmWorld "").cfg.BackupStorageS3 = none ∧
      (∀ x ∈ (getCollectorConfig calmWorld "").calls,
        x.1 ≠ Call.yamlUnmarshal ∧ ∀ p, x.1 ≠ Call.readFile p) ∧
      (getCollectorConfig calmWorld "").cfg =
        { CollectorConfig.zero with CollectSpanSec := 60, StorageType := "s3" } ∧
      (getCollectorConfig collectWorld "pitr.yaml").cfg =
        { CollectorConfig.zero with CollectSpanSec := 60, StorageType := "azure" } ∧
      (getCollectorConfig invalidWorld "").err =
        some (Error.ext (ExtError.pkg "Bucket is required")) :=
  ⟨by rfl,
    ((getCollectorConfig_contract calmWorld "").2.2.1 (by rfl)).2.2.2.1 (by rfl),
    ((getCollectorConfig_contract calmWorld "").1 rfl).2,
    ((getCollectorConfig_contract calmWorld "").2.2.2.2.2.2.2 (by rfl)).trans (by rfl),
    ((getCollectorConfig_contract collectWorld "pitr.yaml").2.2.2.2.2.2.2 (by rfl)).trans
      (by decide),
    (getCollectorConfig_contract invalidWorld "").2.2.2.2.2.2.1.trans (by rfl)⟩

theorem getRecovererConfig_s3 (w : World)
    (h : (w.envParseRecoverer RecovererConfig.zero).2 = none)
    (hs : (w.envParseRecoverer RecovererConfig.zero).1.StorageType = "s3") :
    getRecovererConfig w =
      ⟨{ (w.envParseRecoverer RecovererConfig.zero).1 with
          BinlogStorageS3 := (w.envParseBinlogS3
            (w.envParseRecoverer RecovererConfig.zero).1.BinlogStorageS3).1 },
        ext (w.envParseBinlogS3 (w.envParseRecoverer RecovererConfig.zero).1.BinlogStorageS3).2,
        [(Call.envParseRecoverer, none),
          (Call.envParseBinlogS3,
            ext (w.envParseBinlogS3
              (w.envParseRecoverer RecovererConfig.zero).1.BinlogStorageS3).2)]⟩ := by
  unfold getRecovererConfig
  rcases hp : w.envParseRecoverer RecovererConfig.zero with ⟨c, e⟩
  rw [hp] at h hs
  simp only at h hs
  subst h
  simp [hp, hs]

theorem getRecovererConfig_azure (w : World)
    (h : (w.envParseRecoverer RecovererConfig.zero).2 = none)
    (hs : (w.envParseRecoverer RecovererConfig.zero).1.StorageType = "azure") :
    getRecovererConfig w =
      ⟨{ (w.envParseRecoverer RecovererConfig.zero).1 with
          BinlogStorageAzure := (w.envParseBinlogAzure
            (w.envParseRecoverer RecovererConfig.zero).1.BinlogStorageAzure).1 },
        ext (w.envParseBinlogAzure
          (w.envParseRecoverer RecovererConfig.zero).1.BinlogStorageAzure).2,
        [(Call.envParseRecoverer, none),
          (Call.envParseBinlogAzure,
            ext (w.envParseBinlogAzure
              (w.envParseRecoverer RecovererConfig.zero).1.BinlogStorageAzure).2)]⟩ := by
  unfold getRecovererConfig
  rcases hp : w.envParseRecoverer RecovererConfig.zero with ⟨c, e⟩
  rw [hp] at h hs
  simp only at h hs
  subst h
  simp [hp, hs]

theorem getRecovererConfig_other (w : World)
    (h : (w.envParseRecoverer RecovererConfig.zero).2 = none)
    (hs : (w.envParseRecoverer RecovererConfig.zero).1.StorageType ≠ "s3")
    (ha : (w.envParseRecoverer RecovererConfig.zero).1.StorageType ≠ "azure") :
    getRecovererConfig w =
      ⟨(w.envParseRecoverer RecovererConfig.zero).1, some (Error.new "unknown STORAGE_TYPE"),
        [(Call.envParseRecoverer, none)]⟩ := by
  unfold getRecovererConfig
  rcases hp : w.envParseRecoverer RecovererConfig.zero with ⟨c, e⟩
  rw [hp] at h hs ha
  simp only at h hs ha
  subst h
  simp [hp, hs, ha]

theorem ext_ne_new (e : Option ExtError) (msg : String) : ext e ≠ some (Error.new msg) := by
  cases e <;> simp [ext]

/-- C9: when the top-level environment parse succeeds, `getRecovererConfig`
returns the error "unknown STORAGE_TYPE" exactly when the parsed storage type
is neither "s3" nor "azure"; for "s3" it parses the S3 section only and for
"azure" the Azure section only, so the result does not depend on what parsing
the other section would give. -/
theorem getRecovererConfig_contract (w : World)
    (h : (w.envParseRecoverer RecovererConfig.zero).2 = none) :
    ((getRecovererConfig w).err = some (Error.new "unknown STORAGE_TYPE") ↔
      (w.envParseRecoverer RecovererConfig.zero).1.StorageType ≠ "s3" ∧
        (w.envParseRecoverer RecovererConfig.zero).1.StorageType ≠ "azure") ∧
    ((w.envParseRecoverer RecovererConfig.zero).1.StorageType = "s3" →
      (getRecovererConfig w).calls.map Prod.fst = [Call.envParseRecoverer, Call.envParseBinlogS3] ∧
      (getRecovererConfig w).err =
        ext (w.envParseBinlogS3 (w.envParseRecoverer RecovererConfig.zero).1.BinlogStorageS3).2 ∧
      ∀ f, getRecovererConfig { w with envParseBinlogAzure := f } = getRecovererConfig w) ∧
    ((w.envParseRecoverer RecovererConfig.zero).1.StorageType = "azure" →
      (getRecovererConfig w).calls.map Prod.fst =
        [Call.envParseRecoverer, Call.envParseBinlogAzure] ∧
      (getRecovererConfig w).err =
        ext (w.envParseBinlogAzure
          (w.envParseRecoverer RecovererConfig.zero).1.BinlogStorageAzure).2 ∧
      ∀ f, getRecovererConfig { w with envParseBinlogS3 := f } = getRecovererConfig w) := by
  refine ⟨?_, ?_, ?_⟩
  · by_cases hs : (w.envParseRecoverer RecovererConfig.zero).1.StorageType = "s3"
    · rw [getRecovererConfig_s3 w h hs]
      simp [hs, ext_ne_new]
    · by_cases ha : (w.envParseRecoverer RecovererConfig.zero).1.StorageType = "azure"
      · rw [getRecovererConfig_azure w h ha]
        simp [ha, ext_ne_new]
      · rw [getRecovererConfig_other w h hs ha]
        simp [hs, ha]
  · intro hs
    refine ⟨by rw [getRecovererConfig_s3 w h hs]; rfl, by rw [getRecovererConfig_s3 w h hs], ?_⟩
    intro f
    exact (getRecovererConfig_s3 { w with envParseBinlogAzure := f } h hs).trans
      (getRecovererConfig_s3 w h hs).symm
  · intro ha
    refine ⟨by rw [getRecovererConfig_azure w h ha]; rfl,
      by rw [getRecovererConfig_azure w h ha], ?_⟩
    intro f
    exact (getRecovererConfig_azure { w with envParseBinlogS3 := f } h ha).trans
      (getRecovererConfig_azure w h ha).symm

/-- C9 at a sample world: the storage type is "s3", the Azure section would
fail to parse, and the loader still succeeds. -/
theorem getRecovererConfig_contract_witness :
    (calmWorld.envParseRecoverer RecovererConfig.zero).2 = none ∧
      (calmWorld.envParseBinlogAzure
        (calmWorld.envParseRecoverer RecovererConfig.zero).1.BinlogStorageAzure).2 ≠ none ∧
      (getRecovererConfig calmWorld).err = none ∧
      (getRecovererConfig calmWorld).calls.map Prod.fst =
        [Call.envParseRecoverer, Call.envParseBinlogS3] :=
  ⟨by rfl, by decide,
    ((getRecovererConfig_contract calmWorld (by rfl)).2.1 (by rfl)).2.1.trans (by rfl),
    ((getRecovererConfig_contract calmWorld (by rfl)).2.1 (by rfl)).1⟩

/-! ## The process: invariants of every reachable state -/

theorem pcInv_initial (w : World) : PcInv w (initial w) := by
  simp [PcInv, initial]

theorem pcInv_step (w : World) (s : State) (h : PcInv w s) : PcInv w (step w s) := by
  obtain ⟨pc, now, nextCtx, trace⟩ := s
  cases pc with
  | main =>
    simp only [PcInv] at h
    obtain ⟨h1, h2, h3⟩ := h
    subst h1 h2 h3
    simp only [step]
    split
    · rename_i hc
      simp [PcInv, rootCtx, hc]
    · split
      · rename_i hc
        simp [PcInv, rootCtx, hc]
      · simp [PcInv]
  | runCollector ctx cfgPath =>
    simp only [PcInv] at h
    obtain ⟨h1, h2, h3, h4, h5⟩ := h
    subst h1 h2 h3 h4
    simp only [step]
    split
    · simp [PcInv, Fatalln]
    · simp [PcInv, h5, loadedConfig]
  | collectorNew ctx config =>
    simp only [PcInv] at h
    obtain ⟨h1, h2, h3, h4, h5⟩ := h
    subst h1 h2 h3 h4
    simp only [step]
    split
    · simp [PcInv, Fatalln]
    · simp [PcInv, h5, cycleStart]
  | loopHead ctx config n =>
    simp only [PcInv] at h
    obtain ⟨h1, h2, h3, h4, h5⟩ := h
    subst h1 h2 h3 h4
    simp [step, PcInv, h5, cycleCtx]
  | inRun ctx config n timeout =>
    simp only [PcInv] at h
    obtain ⟨h1, h2, h3, h4, h5, h6⟩ := h
    subst h1 h2 h3 h4 h5
    simp only [step]
    split
    · simp [PcInv, Fatalln]
    · simp [PcInv, h6, cycleReturn]
  | selectWait ctx config n timerAt =>
    simp only [PcInv] at h
    obtain ⟨h1, h2, h3, h4, h5, h6⟩ := h
    subst h1 h2 h3 h4 h5
    have ht : PcInv w (State.mk (PC.loopHead rootCtx (loadedConfig w) (n + 1))
        (cycleReturn w n + max 0 (spanDuration (loadedConfig w))) (n + 2)
        (Event.timerFired n (cycleReturn w n + max 0 (spanDuration (loadedConfig w)))
          :: trace)) := by
      simp [PcInv, h6, cycleStart, cycleReturn, cycleCtx]
    simp only [step]
    split
    · split
      · simp [PcInv, Fatalln]
      · exact ht
    · exact ht
  | runRecoverer ctx =>
    simp only [PcInv] at h
    simp only [step]
    split
    · simp [PcInv, Fatalln]
    · simpa [PcInv] using h
  | recovererNew ctx config =>
    simp only [PcInv] at h
    simp only [step]
    split
    · simp [PcInv, Fatalln]
    · simpa [PcInv] using h
  | inRecover ctx config =>
    simp only [PcInv] at h
    simp only [step]
    split
    · simp [PcInv, Fatalln]
    · simpa [PcInv] using h.2
  | mainReturn => simp [step, PcInv]
  | exited c => simp [step, PcInv]

theorem pcInv_exec (w : World) (k : Nat) : PcInv w (exec w k) := by
  induction k with
  | zero => exact pcInv_initial w
  | succ k ih => exact pcInv_step w _ ih

theorem getCollectorConfig_ofCollector (w : World) (cfgPath : String) :
    ∀ x ∈ (getCollectorConfig w cfgPath).calls, x.1.ofCollector = true := by
  obtain ⟨vs, hcalls, hvs⟩ := getCollectorConfig_calls w cfgPath
  intro x hx
  rw [hcalls] at hx
  rcases List.mem_append.1 hx with hx | hx
  · by_cases hp : cfgPath = ""
    · subst hp
      rcases (load_env_calls w _).2 x hx with h | h | h <;> simp [h, Call.ofCollector]
    · rcases (load_yaml_calls w cfgPath _ hp).2 x hx with h | h <;> simp [h, Call.ofCollector]
  · rcases hvs x hx with h | h | h <;> simp [h, Call.ofCollector]

theorem getRecovererConfig_ofRecoverer (w : World) :
    ∀ x ∈ (getRecovererConfig w).calls, x.1.ofCollector = false := by
  unfold getRecovererConfig
  rcases hp : w.envParseRecoverer RecovererConfig.zero with ⟨c, _ | e⟩
  · simp only [hp]
    split_ifs <;> simp [Call.ofCollector]
  · simp [hp, Call.ofCollector]

theorem mem_callEvents (calls : List (Call × Option Error)) (e : Event) :
    e ∈ callEvents calls ↔ ∃ x ∈ calls, e = Event.call x.1 x.2 := by
  simp only [callEvents, List.mem_reverse, List.mem_map]
  constructor
  · rintro ⟨x, hx, rfl⟩
    exact ⟨x, hx, rfl⟩
  · rintro ⟨x, hx, rfl⟩
    exact ⟨x, hx, rfl⟩

theorem eventOK_step (w : World) (s : State) (hpc : PcInv w s)
    (h : ∀ e ∈ s.trace, EventOK w e) : ∀ e ∈ (step w s).trace, EventOK w e := by
  obtain ⟨pc, now, nextCtx, trace⟩ := s
  simp only at h
  cases pc with
  | main =>
    simp only [PcInv] at hpc
    obtain ⟨h1, h2, h3⟩ := hpc
    subst h1 h2 h3
    simp only [step]
    split
    · simp [EventOK, rootCtx]
    · split
      · simp [EventOK, rootCtx]
      · simp [EventOK, rootCtx]
  | runCollector ctx cfgPath =>
    simp only [PcInv] at hpc
    obtain ⟨h1, h2, h3, h4, h5⟩ := hpc
    subst h1 h2 h3 h4
    have hc : ∀ e ∈ callEvents (getCollectorConfig w (mainCfgPath w.args)).calls,
        EventOK w e := by
      intro e he
      obtain ⟨x, hx, rfl⟩ := (mem_callEvents _ _).1 he
      simp [EventOK, getCollectorConfig_ofCollector w _ x hx, h5]
    simp only [step]
    split
    · intro e he
      simp only [Fatalln, List.mem_cons, List.mem_append] at he
      rcases he with rfl | rfl | (rfl | he) | he
      · trivial
      · trivial
      · exact ⟨rfl, h5⟩
      · exact hc e he
      · exact h e he
    · intro e he
      simp only [List.mem_cons, List.mem_append] at he
      rcases he with (rfl | he) | he
      · exact ⟨rfl, h5⟩
      · exact hc e he
      · exact h e he
  | collectorNew ctx config =>
    simp only [PcInv] at hpc
    obtain ⟨h1, h2, h3, h4, h5⟩ := hpc
    subst h1 h2 h3 h4
    simp only [step]
    split
    · intro e he
      simp only [Fatalln, List.mem_cons] at he
      rcases he with rfl | rfl | rfl | he
      · trivial
      · trivial
      · exact ⟨rfl, rfl, h5⟩
      · exact h e he
    · intro e he
      simp only [List.mem_cons] at he
      rcases he with rfl | rfl | he
      · trivial
      · exact ⟨rfl, rfl, h5⟩
      · exact h e he
  | loopHead ctx config n =>
    simp only [PcInv] at hpc
    obtain ⟨h1, h2, h3, h4, h5⟩ := hpc
    subst h1 h2 h3 h4
    intro e he
    simp only [step, List.mem_cons] at he
    rcases he with rfl | he
    · exact ⟨rfl, rfl, h5⟩
    · exact h e he
  | inRun ctx config n timeout =>
    simp only [PcInv] at hpc
    obtain ⟨h1, h2, h3, h4, h5, h6⟩ := hpc
    subst h1 h2 h3 h4 h5
    simp only [step]
    split
    · intro e he
      simp only [Fatalln, List.mem_cons] at he
      rcases he with rfl | rfl | rfl | he
      · trivial
      · trivial
      · exact ⟨rfl, rfl, h6⟩
      · exact h e he
    · intro e he
      simp only [List.mem_cons] at he
      rcases he with rfl | rfl | he
      · exact ⟨rfl, rfl, h6⟩
      · exact ⟨rfl, rfl, h6⟩
      · exact h e he
  | selectWait ctx config n timerAt =>
    simp only [PcInv] at hpc
    obtain ⟨h1, h2, h3, h4, h5, h6⟩ := hpc
    subst h1 h2 h3 h4 h5
    have ht : ∀ e ∈ Event.timerFired n
        (cycleReturn w n + max 0 (spanDuration (loadedConfig w))) :: trace, EventOK w e := by
      intro e he
      simp only [List.mem_cons] at he
      rcases he with rfl | he
      · exact ⟨rfl, h6⟩
      · exact h e he
    simp only [step]
    split
    · split
      · intro e he
        simp only [Fatalln, List.mem_cons] at he
        rcases he with rfl | rfl | rfl | he
        · trivial
        · trivial
        · exact h6
        · exact h e he
      · exact ht
    · exact ht
  | runRecoverer ctx =>
    simp only [PcInv] at hpc
    obtain ⟨h1, h5⟩ := hpc
    subst h1
    have hc : ∀ e ∈ callEvents (getRecovererConfig w).calls, EventOK w e := by
      intro e he
      obtain ⟨x, hx, rfl⟩ := (mem_callEvents _ _).1 he
      simp [EventOK, getRecovererConfig_ofRecoverer w x hx, h5]
    simp only [step]
    split
    · intro e he
      simp only [Fatalln, List.mem_cons, List.mem_append] at he
      rcases he with rfl | rfl | (rfl | he) | he
      · trivial
      · trivial
      · exact h5
      · exact hc e he
      · exact h e he
    · intro e he
      simp only [List.mem_cons, List.mem_append] at he
      rcases he with (rfl | he) | he
      · exact h5
      · exact hc e he
      · exact h e he
  | recovererNew ctx config =>
    simp only [PcInv] at hpc
    obtain ⟨h1, h5⟩ := hpc
    subst h1
    simp only [step]
    split
    · intro e he
      simp only [Fatalln, List.mem_cons] at he
      rcases he with rfl | rfl | rfl | he
      · trivial
      · trivial
      · exact ⟨rfl, h5⟩
      · exact h e he
    · intro e he
      simp only [List.mem_cons] at he
      rcases he with rfl | rfl | rfl | he
      · exact ⟨rfl, h5⟩
      · trivial
      · exact ⟨rfl, h5⟩
      · exact h e he
  | inRecover ctx config =>
    simp only [PcInv] at hpc
    obtain ⟨h1, h5⟩ := hpc
    subst h1
    simp only [step]
    split
    · intro e he
      simp only [Fatalln, List.mem_cons] at he
      rcases he with rfl | rfl | rfl | he
      · trivial
      · trivial
      · exact h5
      · exact h e he
    · intro e he
      simp only [List.mem_cons] at he
      rcases he with rfl | he
      · exact h5
      · exact h e he
  | mainReturn =>
    intro e he
    simp only [step, List.mem_cons] at he
    rcases he with rfl | he
    · trivial
    · exact h e he
  | exited c => simpa [step] using h

theorem eventOK_exec (w : World) (k : Nat) : ∀ e ∈ (exec w k).trace, EventOK w e := by
  induction k with
  | zero => simp [exec, initial]
  | succ k ih => exact eventOK_step w _ (pcInv_exec w k) ih

theorem step_exited (w : World) (s : State) (c : Nat) (h : s.pc = .exited c) : step w s = s := by
  obtain ⟨pc, now, nextCtx, trace⟩ := s
  simp only at h
  subst h
  rfl

theorem exec_exited (w : World) (k : Nat) (c : Nat) (h : (exec w k).pc = .exited c) (j : Nat) :
    exec w (k + j) = exec w k := by
  induction j with
  | zero => rfl
  | succ j ih =>
    show step w (exec w (k + j)) = exec w k
    rw [ih]
    exact step_exited w _ c h

theorem notifyCount_append (l tr : List Event) :
    notifyCount (l ++ tr) = notifyCount l + notifyCount tr := by
  induction l with
  | nil => simp [notifyCount]
  | cons e l ih =>
    cases e <;> simp [notifyCount, ih]
    omega

theorem runStarts_append (l tr : List Event) :
    runStarts (l ++ tr) = runStarts l + runStarts tr := by
  induction l with
  | nil => simp [runStarts]
  | cons e l ih =>
    cases e <;> simp [runStarts, ih]
    omega

theorem runReturns_append (l tr : List Event) :
    runReturns (l ++ tr) = runReturns l + runReturns tr := by
  induction l with
  | nil => simp [runReturns]
  | cons e l ih =>
    cases e <;> simp [runReturns, ih]
    omega

theorem counts_calls (l : List Event) (h : ∀ e ∈ l, ∃ c err, e = Event.call c err) :
    notifyCount l = 0 ∧ runStarts l = 0 ∧ runReturns l = 0 := by
  induction l with
  | nil => simp [notifyCount, runStarts, runReturns]
  | cons e l ih =>
    obtain ⟨c, err, rfl⟩ := h e (List.mem_cons_self _ _)
    simpa [notifyCount, runStarts, runReturns] using
      ih (fun e he => h e (List.mem_cons_of_mem _ he))

theorem callEvents_calls (calls : List (Call × Option Error)) :
    ∀ e ∈ callEvents calls, ∃ c err, e = Event.call c err := by
  intro e he
  obtain ⟨x, _, rfl⟩ := (mem_callEvents _ _).1 he
  exact ⟨x.1, x.2, rfl⟩

theorem notifyCount_callEvents (calls : List (Call × Option Error)) :
    notifyCount (callEvents calls) = 0 :=
  (counts_calls _ (callEvents_calls calls)).1

theorem runStarts_callEvents (calls : List (Call × Option Error)) :
    runStarts (callEvents calls) = 0 :=
  (counts_calls _ (callEvents_calls calls)).2.1

theorem runReturns_callEvents (calls : List (Call × Option Error)) :
    runReturns (callEvents calls) = 0 :=
  (counts_calls _ (callEvents_calls calls)).2.2

theorem notifyInv_step (w : World) (s : State) (h : NotifyInv s) : NotifyInv (step w s) := by
  obtain ⟨pc, now, nextCtx, trace⟩ := s
  cases pc <;> simp only [step, Fatalln] <;> (repeat' split) <;>
    simp_all [NotifyInv, notifyCount, notifyCount_append, notifyCount_callEvents]

theorem notifyInv_exec (w : World) (k : Nat) : NotifyInv (exec w k) := by
  induction k with
  | zero => simp [exec, initial, NotifyInv, notifyCount]
  | succ k ih => exact notifyInv_step w _ ih

theorem exec_pc_main (w : World) (k : Nat) : (exec w k).pc = .main ↔ k = 0 := by
  induction k with
  | zero => simp [exec, initial]
  | succ k ih =>
    simp only [exec, Nat.succ_ne_zero, iff_false, reduceCtorEq]
    generalize exec w k = s
    obtain ⟨pc, now, nextCtx, trace⟩ := s
    cases pc <;> simp only [step, Fatalln] <;> (repeat' split) <;> simp

theorem ordered_nil : Ordered [] := by
  intro later e earlier h
  simp at h

theorem ordered_cons (e : Event) (tr : List Event) (h : Ordered tr) (he : OrderOK e tr) :
    Ordered (e :: tr) := by
  intro later e1 earlier heq
  cases later with
  | nil =>
    simp only [List.nil_append, List.cons.injEq] at heq
    obtain ⟨rfl, rfl⟩ := heq
    exact he
  | cons x later =>
    simp only [List.cons_append, List.cons.injEq] at heq
    exact h later e1 earlier heq.2

theorem ordered_append_calls (l tr : List Event) (hl : ∀ e ∈ l, ∃ c err, e = Event.call c err)
    (h : Ordered tr) : Ordered (l ++ tr) := by
  induction l with
  | nil => exact h
  | cons e l ih =>
    obtain ⟨c, err, rfl⟩ := hl e (List.mem_cons_self _ _)
    exact ordered_cons _ _ (ih (fun e he => hl e (List.mem_cons_of_mem _ he))) trivial

theorem ordered_callEvents (calls : List (Call × Option Error)) (tr : List Event)
    (h : Ordered tr) : Ordered (callEvents calls ++ tr) :=
  ordered_append_calls _ _ (callEvents_calls calls) h

theorem seqInv_step (w : World) (s : State) (h : SeqInv s) : SeqInv (step w s) := by
  obtain ⟨pc, now, nextCtx, trace⟩ := s
  obtain ⟨ho, hc⟩ := h
  simp only at ho
  cases pc with
  | main =>
    simp only at hc
    simp only [step]
    split
    · exact ⟨ordered_cons _ _ ho trivial, by simpa [runStarts, runReturns] using hc⟩
    · split
      · exact ⟨ordered_cons _ _ ho trivial, by simp [runStarts, runReturns, hc]⟩
      · exact ⟨ordered_cons _ _ (ordered_cons _ _ (ordered_cons _ _ ho trivial) trivial) trivial,
          by simp [runStarts, runReturns, hc]⟩
  | runCollector ctx cfgPath =>
    simp only at hc
    have ho2 := ordered_cons (Event.getCollectorConfig cfgPath (getCollectorConfig w cfgPath).err)
      _ (ordered_callEvents (getCollectorConfig w cfgPath).calls trace ho) trivial
    simp only [step]
    split
    · exact ⟨ordered_cons _ _ (ordered_cons _ _ ho2 trivial) trivial,
        by simp [Fatalln, runStarts, runReturns, runStarts_append, runReturns_append,
          runStarts_callEvents, runReturns_callEvents, hc]⟩
    · exact ⟨ho2, by simp [runStarts, runReturns, runStarts_append, runReturns_append,
          runStarts_callEvents, runReturns_callEvents, hc]⟩
  | collectorNew ctx config =>
    simp only at hc
    have ho2 := ordered_cons (Event.collectorNew ctx config (ext (w.collectorNew ctx config)))
      _ ho trivial
    simp only [step]
    split
    · exact ⟨ordered_cons _ _ (ordered_cons _ _ ho2 trivial) trivial,
        by simp [Fatalln, runStarts, runReturns, hc]⟩
    · exact ⟨ordered_cons _ _ ho2 trivial, by simp [runStarts, runReturns, hc]⟩
  | loopHead ctx config n =>
    simp only at hc
    simp only [step]
    exact ⟨ordered_cons _ _ ho hc, by simp [runStarts, runReturns, hc]⟩
  | inRun ctx config n timeout =>
    simp only at hc
    have ho2 := ordered_cons (Event.runReturn n (ext (w.collectorRun n timeout now).1)
      (now + (w.collectorRun n timeout now).2)) _ ho hc
    simp only [step]
    split
    · exact ⟨ordered_cons _ _ (ordered_cons _ _ ho2 trivial) trivial,
        by simp [Fatalln, runStarts, runReturns, hc]⟩
    · rename_i herr
      refine ⟨ordered_cons _ _ ho2 trivial, ?_⟩
      simp only [runStarts, runReturns, hc, true_and]
      exact ⟨_, List.mem_cons_of_mem _ (by rw [herr]; exact List.mem_cons_self _ _)⟩
  | selectWait ctx config n timerAt =>
    simp only at hc
    have ht : SeqInv (State.mk (PC.loopHead ctx config (n + 1)) timerAt nextCtx
        (Event.timerFired n timerAt :: trace)) := by
      refine ⟨ordered_cons _ _ ho trivial, ?_⟩
      simp only [runStarts, runReturns, hc, true_and]
      intro m hm
      obtain ⟨t, ht⟩ := hc.2.2
      have : m = n := by omega
      subst this
      exact ⟨t, List.mem_cons_of_mem _ ht⟩
    simp only [step]
    split
    · split
      · exact ⟨ordered_cons _ _ (ordered_cons _ _ (ordered_cons _ _ ho trivial) trivial) trivial,
          by simp [Fatalln, runStarts, runReturns, hc]⟩
      · exact ht
    · exact ht
  | runRecoverer ctx =>
    simp only at hc
    have ho2 := ordered_cons (Event.getRecovererConfig (getRecovererConfig w).err)
      _ (ordered_callEvents (getRecovererConfig w).calls trace ho) trivial
    simp only [step]
    split
    · exact ⟨ordered_cons _ _ (ordered_cons _ _ ho2 trivial) trivial,
        by simp [Fatalln, runStarts, runReturns, runStarts_append, runReturns_append,
          runStarts_callEvents, runReturns_callEvents, hc]⟩
    · exact ⟨ho2, by simp [runStarts, runReturns, runStarts_append, runReturns_append,
          runStarts_callEvents, runReturns_callEvents, hc]⟩
  | recovererNew ctx config =>
    simp only at hc
    have ho2 := ordered_cons (Event.recovererNew ctx config (ext (w.recovererNew ctx config)))
      _ ho trivial
    simp only [step]
    split
    · exact ⟨ordered_cons _ _ (ordered_cons _ _ ho2 trivial) trivial,
        by simp [Fatalln, runStarts, runReturns, hc]⟩
    · exact ⟨ordered_cons _ _ (ordered_cons _ _ ho2 trivial) trivial,
        by simp [runStarts, runReturns, hc]⟩
  | inRecover ctx config =>
    simp only at hc
    have ho2 := ordered_cons (Event.recoverReturn (ext (w.recovererRun ctx now).1)
      (now + (w.recovererRun ctx now).2)) _ ho trivial
    simp only [step]
    split
    · exact ⟨ordered_cons _ _ (ordered_cons _ _ ho2 trivial) trivial,
        by simp [Fatalln, runStarts, runReturns, hc]⟩
    · exact ⟨ho2, by simp [runStarts, runReturns, hc]⟩
  | mainReturn =>
    simp only at hc
    exact ⟨ordered_cons _ _ ho trivial, by simp [step, runStarts, runReturns, hc]⟩
  | exited c => exact ⟨ho, hc⟩

theorem seqInv_exec (w : World) (k : Nat) : SeqInv (exec w k) := by
  induction k with
  | zero => exact ⟨ordered_nil, by simp [exec, initial, runStarts, runReturns]⟩
  | succ k ih => exact seqInv_step w _ ih

theorem returnedError_callEvents (calls : List (Call × Option Error)) :
    ∀ e ∈ callEvents calls, e.returnedError = none := by
  intro e he
  obtain ⟨c, err, rfl⟩ := callEvents_calls calls e he
  rfl

theorem failStop_fatal (s : State) (label : String) (e : Event) (err : Error)
    (rest : List Event) (htr : s.trace = e :: rest) (he : e.returnedError = some err)
    (hrest : ∀ x ∈ rest, x.returnedError = none) :
    FailStop (Fatalln s [label, err.message]) := by
  refine Or.inr ⟨rfl, [label], e, err, rest, ?_, he, hrest⟩
  simp [Fatalln, htr]

theorem failStop_step (w : World) (s : State) (h : FailStop s) : FailStop (step w s) := by
  rcases h with h | ⟨hpc, h⟩
  · obtain ⟨pc, now, nextCtx, trace⟩ := s
    simp only at h
    cases pc with
    | main =>
      simp only [step]
      split
      · left; simpa [Event.returnedError] using h
      · split
        · left; simpa [Event.returnedError] using h
        · left; simpa [Event.returnedError] using h
    | runCollector ctx cfgPath =>
      have hc : ∀ x ∈ callEvents (getCollectorConfig w cfgPath).calls ++ trace,
          x.returnedError = none := by
        intro x hx
        rcases List.mem_append.1 hx with hx | hx
        · exact returnedError_callEvents _ x hx
        · exact h x hx
      simp only [step]
      split
      · rename_i err herr
        exact failStop_fatal _ _ _ err _ rfl herr hc
      · rename_i herr
        left
        intro x hx
        simp only [List.cons_append, List.mem_cons] at hx
        rcases hx with rfl | hx
        · exact herr
        · exact hc x hx
    | collectorNew ctx config =>
      simp only [step]
      split
      · rename_i err herr
        exact failStop_fatal _ _ _ err _ rfl herr h
      · rename_i herr
        left
        intro x hx
        simp only [List.mem_cons] at hx
        rcases hx with rfl | rfl | hx
        · rfl
        · exact herr
        · exact h x hx
    | loopHead ctx config n =>
      left
      intro x hx
      simp only [step, List.mem_cons] at hx
      rcases hx with rfl | hx
      · rfl
      · exact h x hx
    | inRun ctx config n timeout =>
      simp only [step]
      split
      · rename_i err herr
        exact failStop_fatal _ _ _ err _ rfl herr h
      · rename_i herr
        left
        intro x hx
        simp only [List.mem_cons] at hx
        rcases hx with rfl | rfl | hx
        · rfl
        · exact herr
        · exact h x hx
    | selectWait ctx config n timerAt =>
      have ht : ∀ x ∈ Event.timerFired n timerAt :: trace, x.returnedError = none := by
        intro x hx
        simp only [List.mem_cons] at hx
        rcases hx with rfl | hx
        · rfl
        · exact h x hx
      simp only [step]
      split
      · split
        · left
          intro x hx
          simp only [Fatalln, List.mem_cons] at hx
          rcases hx with rfl | rfl | rfl | hx
          · rfl
          · rfl
          · rfl
          · exact h x hx
        · exact Or.inl ht
      · exact Or.inl ht
    | runRecoverer ctx =>
      have hc : ∀ x ∈ callEvents (getRecovererConfig w).calls ++ trace,
          x.returnedError = none := by
        intro x hx
        rcases List.mem_append.1 hx with hx | hx
        · exact returnedError_callEvents _ x hx
        · exact h x hx
      simp only [step]
      split
      · rename_i err herr
        exact failStop_fatal _ _ _ err _ rfl herr hc
      · rename_i herr
        left
        intro x hx
        simp only [List.cons_append, List.mem_cons] at hx
        rcases hx with rfl | hx
        · exact herr
        · exact hc x hx
    | recovererNew ctx config =>
      simp only [step]
      split
      · rename_i err herr
        exact failStop_fatal _ _ _ err _ rfl herr h
      · rename_i herr
        left
        intro x hx
        simp only [List.mem_cons] at hx
        rcases hx with rfl | rfl | rfl | hx
        · rfl
        · rfl
        · exact herr
        · exact h x hx
    | inRecover ctx config =>
      simp only [step]
      split
      · rename_i err herr
        exact failStop_fatal _ _ _ err _ rfl herr h
      · rename_i herr
        left
        intro x hx
        simp only [List.mem_cons] at hx
        rcases hx with rfl | hx
        · exact herr
        · exact h x hx
    | mainReturn =>
      left
      intro x hx
      simp only [step, List.mem_cons] at hx
      rcases hx with rfl | hx
      · rfl
      · exact h x hx
    | exited c => exact Or.inl (by simpa [step] using h)
  · rw [step_exited w s 1 hpc]
    exact Or.inr ⟨hpc, h⟩

theorem failStop_exec (w : World) (k : Nat) : FailStop (exec w k) := by
  induction k with
  | zero => exact Or.inl (by simp [exec, initial])
  | succ k ih => exact failStop_step w _ ih

theorem exitInv_step (w : World) (s : State) (hpc : PcInv w s) (h : ExitInv w s) :
    ExitInv w (step w s) := by
  obtain ⟨pc, now, nextCtx, trace⟩ := s
  cases pc <;> simp only [step, Fatalln] <;> (repeat' split) <;>
    simp_all [ExitInv, PcInv]

theorem exitInv_exec (w : World) (k : Nat) : ExitInv w (exec w k) := by
  induction k with
  | zero => simp [exec, initial, ExitInv]
  | succ k ih => exact exitInv_step w _ (pcInv_exec w k) ih

theorem cycleCtx_eq (w : World) (n : Nat) :
    cycleCtx w n =
      Context.withDeadline (n + 1) rootCtx (cycleStart w n)
        (cycleStart w n + spanDuration (loadedConfig w)) := by
  simp [cycleCtx, WithTimeout, WithDeadline, rootCtx, Context.Deadline]

theorem rootCtx_cause (signalAt : Option Time) :
    rootCtx.cause signalAt = signalAt.map fun t => (t, ExtError.canceled) := by
  cases signalAt <;> simp [rootCtx, Context.cause, earlier]

theorem done_of_root_done (signalAt : Option Time) (id : Nat) (made d t : Time)
    (h : rootCtx.done signalAt t = true) :
    (Context.withDeadline id rootCtx made d).done signalAt t = true := by
  cases signalAt with
  | none => simp [Context.done, rootCtx_cause] at h
  | some ts =>
    simp only [Context.done, rootCtx_cause, Option.map_some', decide_eq_true_eq] at h
    simp only [Context.done, Context.cause, rootCtx_cause, Option.map_some', earlier]
    split_ifs with h1 h2
    · show decide (ts ≤ t) = true
      exact decide_eq_true h
    · show decide (d ≤ t) = true
      exact decide_eq_true (le_trans (le_of_lt h2) h)
    · show decide (ts ≤ t) = true
      exact decide_eq_true h

theorem wrap64_of_range (x : Int) (h1 : -(2 ^ 63) ≤ x) (h2 : x < 2 ^ 63) : wrap64 x = x := by
  unfold wrap64
  norm_num at h1 h2 ⊢
  omega

theorem spanDuration_of_range (config : CollectorConfig)
    (h1 : -(2 ^ 63) ≤ config.CollectSpanSec * Second)
    (h2 : config.CollectSpanSec * Second < 2 ^ 63) :
    spanDuration config = config.CollectSpanSec * Second := by
  unfold spanDuration
  have h3 : wrap64 config.CollectSpanSec = config.CollectSpanSec := by
    apply wrap64_of_range
    · unfold Second at h1 h2
      norm_num at h1 h2 ⊢
      omega
    · unfold Second at h1 h2
      norm_num at h1 h2 ⊢
      omega
  rw [h3]
  exact wrap64_of_range _ h1 h2

/-! ## The process: the loop, the contexts, the exits -/

/-- C1: in every reachable state at most one call of the collector's `Run` has
started and not returned; the call numbered `n` starts when exactly `n` calls
have started and all of them have returned, and the call numbered `n + 1`
starts only after the call numbered `n` has returned without error. -/
theorem collector_cycles_sequential (w : World) (k : Nat) :
    (runStarts (exec w k).trace = runReturns (exec w k).trace ∨
      runStarts (exec w k).trace = runReturns (exec w k).trace + 1) ∧
    (∀ later earlier n ctx t, (exec w k).trace = later ++ Event.runStart n ctx t :: earlier →
      runStarts earlier = n ∧ runReturns earlier = n) ∧
    (∀ later earlier n ctx t,
      (exec w k).trace = later ++ Event.runStart (n + 1) ctx t :: earlier →
      ∃ t0, Event.runReturn n none t0 ∈ earlier) := by
  obtain ⟨ho, hc⟩ := seqInv_exec w k
  refine ⟨?_, ?_, ?_⟩
  · generalize exec w k = s at hc
    obtain ⟨pc, now, nextCtx, trace⟩ := s
    cases pc <;> simp only at hc ⊢ <;> omega
  · intro later earlier n ctx t heq
    have h := ho later _ earlier heq
    exact ⟨h.1, h.2.1⟩
  · intro later earlier n ctx t heq
    have h := ho later _ earlier heq
    exact h.2.2 n rfl

/-- C1 at a sample world: when the second call of `Run` starts, the first one
has returned without error. -/
theorem collector_cycles_sequential_witness :
    ∃ t0, Event.runReturn 0 none t0 ∈ (exec calmWorld 6).trace :=
  (collector_cycles_sequential calmWorld 7).2.2 [] (exec calmWorld 6).trace 0
    (Context.withDeadline 2 rootCtx 61000000000 121000000000) 61000000000 (by rfl)

/-- C2: whenever configuration loading, `collector.New`, `recoverer.New` or a
`Run` of the collector or of the recoverer has returned an error, the process
has logged a line that ends with the text of that error and has exited with
status 1; these are the last two things it ever does, so no further cycle
starts. -/
theorem fail_stop (w : World) (k : Nat) (e : Event) (err : Error)
    (he : e ∈ (exec w k).trace) (herr : e.returnedError = some err) :
    (exec w k).pc = .exited 1 ∧
    (∃ operands rest,
      (exec w k).trace =
        .exit 1 :: .log (Sprintln (operands ++ [err.message])) :: e :: rest) ∧
    (∀ j, exec w (k + j) = exec w k) := by
  rcases failStop_exec w k with h | ⟨hpc, operands, e1, err1, rest, htr, he1, hrest⟩
  · rw [h e he] at herr
    exact absurd herr (by simp)
  · have hee : e = e1 := by
      rw [htr] at he
      simp only [List.mem_cons] at he
      rcases he with rfl | rfl | rfl | he
      · simp [Event.returnedError] at herr
      · simp [Event.returnedError] at herr
      · rfl
      · rw [hrest e he] at herr
        exact absurd herr (by simp)
    subst hee
    have herr1 : err1 = err := by
      rw [he1] at herr
      exact Option.some.inj herr
    subst herr1
    exact ⟨hpc, ⟨operands, rest, htr⟩, fun j => exec_exited w k 1 hpc j⟩

/-- C2 at a sample world: the second call of `Run` fails, the error is logged
and the process is over. -/
theorem fail_stop_witness :
    Event.runReturn 1 (some (.ext (.pkg "replication stream lost"))) 61000000000
        ∈ (exec failingWorld 8).trace ∧
      (exec failingWorld 8).pc = .exited 1 ∧
      ∀ j, exec failingWorld (8 + j) = exec failingWorld 8 :=
  ⟨by decide,
    (fail_stop failingWorld 8
      (Event.runReturn 1 (some (.ext (.pkg "replication stream lost"))) 61000000000)
      (.ext (.pkg "replication stream lost")) (by decide) rfl).1,
    (fail_stop failingWorld 8
      (Event.runReturn 1 (some (.ext (.pkg "replication stream lost"))) 61000000000)
      (.ext (.pkg "replication stream lost")) (by decide) rfl).2.2⟩

/-- C3: `main` builds one context, cancelled when the signal arrives; it is the
context given to `collector.New`, the parent of the context of every cycle,
the context watched between cycles, and the context given to `recoverer.New`
and to the recoverer's `Run`; a cycle's context is done whenever it is. -/
theorem single_cancellation_context (w : World) (k : Nat) :
    notifyCount (exec w k).trace = min k 1 ∧
    rootCtx.cause w.signalAt = w.signalAt.map (fun t => (t, ExtError.canceled)) ∧
    (∀ ctx, Event.notifyContext ctx ∈ (exec w k).trace → ctx = rootCtx) ∧
    (∀ ctx config err, Event.collectorNew ctx config err ∈ (exec w k).trace → ctx = rootCtx) ∧
    (∀ n ctx t, Event.runStart n ctx t ∈ (exec w k).trace →
      ctx.parent = some rootCtx ∧
        ∀ t1, rootCtx.done w.signalAt t1 = true → ctx.done w.signalAt t1 = true) ∧
    (∀ n watched timerAt, Event.select n watched timerAt ∈ (exec w k).trace →
      watched = rootCtx) ∧
    (∀ ctx config err, Event.recovererNew ctx config err ∈ (exec w k).trace → ctx = rootCtx) ∧
    (∀ ctx t, Event.recoverStart ctx t ∈ (exec w k).trace → ctx = rootCtx) := by
  have hev := eventOK_exec w k
  refine ⟨?_, rootCtx_cause _, ?_, ?_, ?_, ?_, ?_, ?_⟩
  · rcases notifyInv_exec w k with ⟨h1, h2⟩ | ⟨h1, h2⟩
    · rw [(exec_pc_main w k).1 h1] at h2 ⊢
      exact h2
    · have hk : k ≠ 0 := fun h0 => h1 ((exec_pc_main w k).2 h0)
      rw [h2]
      omega
  · intro ctx h
    exact hev _ h
  · intro ctx config err h
    exact (hev _ h).1
  · intro n ctx t h
    have h1 := (hev _ h).1
    rw [cycleCtx_eq] at h1
    subst h1
    exact ⟨rfl, fun t1 ht1 => done_of_root_done _ _ _ _ _ ht1⟩
  · intro n watched timerAt h
    exact (hev _ h).1
  · intro ctx config err h
    exact (hev _ h).1
  · intro ctx t h
    exact (hev _ h).1

/-- C3 at a sample world: the context of the second cycle is a child of the
context `main` built. -/
theorem single_cancellation_context_witness :
    (Context.withDeadline 2 rootCtx 61000000000 121000000000).parent = some rootCtx :=
  ((single_cancellation_context calmWorld 7).2.2.2.2.1 1
    (Context.withDeadline 2 rootCtx 61000000000 121000000000) 61000000000 (by decide)).1

/-- C4 as stated fails: with a cycle length of 9223372037 seconds the product
`time.Duration(config.CollectSpanSec)*time.Second` wraps around, and the
context of the first cycle, which begins at instant 0, has a deadline in the
past instead of 9223372037 seconds later. -/
theorem cycle_deadline_counterexample :
    (loadedConfig overflowWorld).CollectSpanSec = 9223372037 ∧
      Event.runStart 0 (Context.withDeadline 1 rootCtx 0 (-9223372036709551616)) 0
        ∈ (exec overflowWorld 4).trace ∧
      (Context.withDeadline 1 rootCtx 0 (-9223372036709551616)).Deadline ≠
        some (0 + (loadedConfig overflowWorld).CollectSpanSec * Second) := by
  decide

/-- C4 as amended: the context passed to `Run` in an iteration that begins at
instant `t` is a fresh child of the context of `main` whose deadline is `t` plus
`time.Duration(config.CollectSpanSec)*time.Second` as `int64` arithmetic gives
it, which is `CollectSpanSec` seconds whenever that many seconds fit a
`time.Duration`; no two iterations share a context. -/
theorem cycle_deadline (w : World) (k n : Nat) (ctx : Context) (t : Time)
    (h : Event.runStart n ctx t ∈ (exec w k).trace) :
    ctx = Context.withDeadline (n + 1) rootCtx t (t + spanDuration (loadedConfig w)) ∧
    ctx.Deadline = some (t + spanDuration (loadedConfig w)) ∧
    (-(2 ^ 63) ≤ (loadedConfig w).CollectSpanSec * Second ∧
        (loadedConfig w).CollectSpanSec * Second < 2 ^ 63 →
      ctx.Deadline = some (t + (loadedConfig w).CollectSpanSec * Second)) ∧
    (∀ m ctx1 t1, Event.runStart m ctx1 t1 ∈ (exec w k).trace → ctx1 = ctx → m = n) := by
  have hev := eventOK_exec w k
  obtain ⟨h1, h2, _⟩ := hev _ h
  rw [cycleCtx_eq] at h1
  subst h1 h2
  refine ⟨rfl, rfl, ?_, ?_⟩
  · intro hr
    rw [spanDuration_of_range _ hr.1 hr.2]
    rfl
  · intro m ctx1 t1 hm heq
    obtain ⟨h3, _, _⟩ := hev _ hm
    rw [cycleCtx_eq] at h3
    rw [h3] at heq
    simp only [Context.withDeadline.injEq] at heq
    omega

/-- C4 as amended, at a sample world: the second cycle begins 61 seconds after the start
and its context ends 60 seconds later. -/
theorem cycle_deadline_witness :
    Event.runStart 1 (Context.withDeadline 2 rootCtx 61000000000 121000000000) 61000000000
        ∈ (exec calmWorld 7).trace ∧
      (Context.withDeadline 2 rootCtx 61000000000 121000000000).Deadline =
        some (61000000000 + (loadedConfig calmWorld).CollectSpanSec * Second) :=
  ⟨by decide,
    (cycle_deadline calmWorld 7 1 (Context.withDeadline 2 rootCtx 61000000000 121000000000) 61000000000
      (by decide)).2.2.1 (by decide)⟩

/-- C5 as stated fails: with a 60 second cycle length and a `Run` that takes
one second, the first two cycles start 61 seconds apart. -/
theorem fixed_interval_counterexample :
    (loadedConfig calmWorld).CollectSpanSec = 60 ∧
      Event.runStart 0 (Context.withDeadline 1 rootCtx 0 60000000000) 0
        ∈ (exec calmWorld 7).trace ∧
      Event.runStart 1 (Context.withDeadline 2 rootCtx 61000000000 121000000000) 61000000000
        ∈ (exec calmWorld 7).trace ∧
      (61000000000 : Time) - 0 ≠ (loadedConfig calmWorld).CollectSpanSec * Second := by
  decide

/-- C5 as amended: for two consecutive cycles, the first cycle's `Run` has
returned without error and the next cycle starts one timer length after that
return, that is one timer length plus the time the first `Run` took after the
first cycle's start; the timer length is `CollectSpanSec` seconds when that is
not negative and fits a `time.Duration`. -/
theorem cycle_period (w : World) (k n : Nat) (c1 c2 : Context) (t1 t2 : Time)
    (h1 : Event.runStart n c1 t1 ∈ (exec w k).trace)
    (h2 : Event.runStart (n + 1) c2 t2 ∈ (exec w k).trace) :
    ∃ t0, Event.runReturn n none t0 ∈ (exec w k).trace ∧
      t0 - t1 = (w.collectorRun n c1 t1).2 ∧
      t2 - t0 = max 0 (spanDuration (loadedConfig w)) ∧
      t2 - t1 = max 0 (spanDuration (loadedConfig w)) + (w.collectorRun n c1 t1).2 ∧
      (0 ≤ (loadedConfig w).CollectSpanSec ∧
          (loadedConfig w).CollectSpanSec * Second < 2 ^ 63 →
        t2 - t0 = (loadedConfig w).CollectSpanSec * Second ∧
        t2 - t1 = (loadedConfig w).CollectSpanSec * Second + (w.collectorRun n c1 t1).2) := by
  have hev := eventOK_exec w k
  obtain ⟨ho, _⟩ := seqInv_exec w k
  obtain ⟨later, earlier, heq⟩ := List.append_of_mem h2
  obtain ⟨t0, ht0⟩ := (ho later _ earlier heq).2.2 n rfl
  have hmem : Event.runReturn n none t0 ∈ (exec w k).trace := by
    rw [heq]
    exact List.mem_append_right _ (List.mem_cons_of_mem _ ht0)
  obtain ⟨e1, e2, _⟩ := hev _ h1
  obtain ⟨e3, e4, _⟩ := hev _ h2
  obtain ⟨e5, _, _⟩ := hev _ hmem
  subst e1 e2 e4 e5
  have ha : cycleReturn w n - cycleStart w n =
      (w.collectorRun n (cycleCtx w n) (cycleStart w n)).2 := by
    simp [cycleReturn]
  have hb : cycleStart w (n + 1) - cycleReturn w n = max 0 (spanDuration (loadedConfig w)) := by
    simp only [cycleStart, cycleReturn, cycleCtx]
    ring
  have hc : cycleStart w (n + 1) - cycleStart w n =
      max 0 (spanDuration (loadedConfig w)) +
        (w.collectorRun n (cycleCtx w n) (cycleStart w n)).2 := by
    simp only [cycleStart, cycleCtx]
    ring
  refine ⟨_, hmem, ha, hb, hc, ?_⟩
  intro hr
  have hpos : 0 ≤ (loadedConfig w).CollectSpanSec * Second := by
    have := hr.1
    unfold Second
    omega
  have hd : spanDuration (loadedConfig w) = (loadedConfig w).CollectSpanSec * Second :=
    spanDuration_of_range _ (le_trans (by norm_num) hpos) hr.2
  rw [hb, hc, hd, max_eq_right hpos]
  exact ⟨rfl, rfl⟩

/-- C5 as amended, at a sample world: the first `Run` returns after one second
and the second cycle starts 60 seconds later, 61 seconds after the first. -/
theorem cycle_period_witness :
    ∃ t0, Event.runReturn 0 none t0 ∈ (exec calmWorld 7).trace ∧
      61000000000 - t0 = (loadedConfig calmWorld).CollectSpanSec * Second ∧
      (61000000000 : Time) - 0 = (loadedConfig calmWorld).CollectSpanSec * Second +
        (calmWorld.collectorRun 0 (Context.withDeadline 1 rootCtx 0 60000000000) 0).2 :=
  match cycle_period calmWorld 7 0 (Context.withDeadline 1 rootCtx 0 60000000000)
    (Context.withDeadline 2 rootCtx 61000000000 121000000000) 0 61000000000 (by decide) (by decide) with
  | ⟨t0, hmem, _, _, _, hr⟩ => ⟨t0, hmem, (hr (by decide)).1, (hr (by decide)).2⟩

/-! ## The process: command dispatch -/

theorem eventOK_mode (w : World) (e : Event) (h : EventOK w e) :
    (e.ofCollector = true → mainCommand w.args = "collect") ∧
      (e.ofRecoverer = true → mainCommand w.args = "recover") := by
  cases e <;> simp_all [EventOK, Event.ofCollector, Event.ofRecoverer]

theorem step_args (w : World) (args : List String) (s : State) (h : s.pc ≠ .main) :
    step { w with args := args } s = step w s := by
  obtain ⟨pc, now, nextCtx, trace⟩ := s
  cases pc with
  | main => exact absurd rfl h
  | _ => rfl

/-- C6: when the first argument is neither "collect" nor "recover", the process
builds its context, writes the usage text naming the argument to standard
error and exits with status 1; nothing of the collector or of the recoverer is
configured, constructed or run. -/
theorem unknown_command_usage (w : World) (prog a : String) (rest : List String)
    (h : w.args = prog :: a :: rest) (h1 : a ≠ "collect") (h2 : a ≠ "recover") (k : Nat) :
    exec w (k + 1) =
      State.mk (.exited 1) w.startTime 1
        [.exit 1,
          .stderr ("ERROR: unknown command \"" ++ a ++
            "\".\nCommands:\n  collect - collect binlogs\n  recover - recover from binlogs\n"),
          .notifyContext rootCtx] ∧
    ∀ e ∈ (exec w (k + 1)).trace, e.ofCollector = false ∧ e.ofRecoverer = false := by
  have hcmd : mainCommand w.args = a := by simp [mainCommand, h]
  have h0 : exec w 1 =
      State.mk (.exited 1) w.startTime 1
        [.exit 1, .stderr (usage a), .notifyContext rootCtx] := by
    simp [exec, initial, step, hcmd, h1, h2, rootCtx]
  have hk : exec w (k + 1) = exec w 1 := by
    rw [Nat.add_comm]
    exact exec_exited w 1 1 (by rw [h0]) k
  rw [hk, h0]
  refine ⟨rfl, ?_⟩
  intro e he
  simp only [List.mem_cons, List.mem_singleton, List.not_mem_nil, or_false] at he
  rcases he with rfl | rfl | rfl <;> exact ⟨rfl, rfl⟩

/-- C6 at a sample world: the command "frob" gets the usage text and status 1. -/
theorem unknown_command_usage_witness :
    (exec frobWorld 5).pc = .exited 1 ∧
      (exec frobWorld 5).trace =
        [.exit 1,
          .stderr ("ERROR: unknown command \"frob\".\nCommands:\n" ++
            "  collect - collect binlogs\n  recover - recover from binlogs\n"),
          .notifyContext rootCtx] :=
  ⟨congrArg State.pc
      (unknown_command_usage frobWorld "pitr" "frob" ["pitr.yaml"] rfl (by decide) (by decide) 4).1,
    congrArg State.trace
      (unknown_command_usage frobWorld "pitr" "frob" ["pitr.yaml"] rfl (by decide) (by decide) 4).1⟩

/-- C7: with no argument, or with "collect" as first argument, `main` enters
`runCollector` with the second argument (the empty string when there is none)
as configuration path and nothing of the recoverer ever happens; with "recover"
as first argument `main` enters `runRecoverer`, nothing of the collector ever
happens, and the arguments after "recover" change nothing. -/
theorem command_dispatch (w : World) :
    ((w.args.length ≤ 1 ∨ ∃ prog rest, w.args = prog :: "collect" :: rest) →
      (exec w 1).pc = .runCollector rootCtx (w.args.getD 2 "") ∧
      (∃ err, Event.getCollectorConfig (w.args.getD 2 "") err ∈ (exec w 2).trace) ∧
      ∀ k, ∀ e ∈ (exec w k).trace, e.ofRecoverer = false) ∧
    (∀ prog rest, w.args = prog :: "recover" :: rest →
      (exec w 1).pc = .runRecoverer rootCtx ∧
      (∃ err, Event.getRecovererConfig err ∈ (exec w 2).trace) ∧
      (∀ k, ∀ e ∈ (exec w k).trace, e.ofCollector = false) ∧
      ∀ rest1 k, exec { w with args := prog :: "recover" :: rest1 } k = exec w k) := by
  have hpath : mainCfgPath w.args = w.args.getD 2 "" := by
    unfold mainCfgPath
    split
    · rename_i h
      simp [List.getD, List.getElem?_eq_getElem h]
    · rename_i h
      simp [List.getD, List.getElem?_eq_none (Nat.le_of_not_lt h)]
  constructor
  · intro h
    have hcmd : mainCommand w.args = "collect" := by
      rcases h with h | ⟨prog, rest, h⟩
      · simp [mainCommand, Nat.not_lt.2 h]
      · simp [mainCommand, h]
    have h1 : exec w 1 = State.mk (.runCollector rootCtx (w.args.getD 2 "")) w.startTime 1
        [.notifyContext rootCtx] := by
      simp [exec, initial, step, hcmd, rootCtx, hpath]
    refine ⟨by rw [h1], ?_, ?_⟩
    · refine ⟨(getCollectorConfig w (w.args.getD 2 "")).err, ?_⟩
      show _ ∈ (step w (exec w 1)).trace
      rw [h1]
      simp only [step]
      split <;> simp [Fatalln]
    · intro k e he
      have hm := (eventOK_mode w e (eventOK_exec w k e he)).2
      rw [hcmd] at hm
      cases hr : e.ofRecoverer with
      | false => rfl
      | true => exact absurd (hm hr) (by decide)
  · intro prog rest h
    have hcmd : mainCommand w.args = "recover" := by simp [mainCommand, h]
    have h1 : exec w 1 = State.mk (.runRecoverer rootCtx) w.startTime 1
        [.notifyContext rootCtx] := by
      simp [exec, initial, step, hcmd, rootCtx]
    refine ⟨by rw [h1], ?_, ?_, ?_⟩
    · refine ⟨(getRecovererConfig w).err, ?_⟩
      show _ ∈ (step w (exec w 1)).trace
      rw [h1]
      simp only [step]
      split <;> simp [Fatalln]
    · intro k e he
      have hm := (eventOK_mode w e (eventOK_exec w k e he)).1
      rw [hcmd] at hm
      cases hr : e.ofCollector with
      | false => rfl
      | true => exact absurd (hm hr) (by decide)
    · intro rest1 k
      induction k with
      | zero => rfl
      | succ k ih =>
        cases k with
        | zero =>
          show step _ (initial _) = exec w 1
          rw [h1]
          simp [initial, step, mainCommand, rootCtx]
        | succ k =>
          show step _ (exec _ (k + 1)) = step w (exec w (k + 1))
          rw [ih]
          exact step_args w _ _ (fun hm => absurd ((exec_pc_main w (k + 1)).1 hm) (by omega))

/-- C7 at sample worlds: "collect pitr.yaml" loads the configuration from
`pitr.yaml`; "recover pitr.yaml" runs as "recover" alone does. -/
theorem command_dispatch_witness :
    (exec collectWorld 1).pc = .runCollector rootCtx "pitr.yaml" ∧
      (exec recoverWorld 1).pc = .runRecoverer rootCtx ∧
      exec { recoverWorld with args := ["pitr", "recover"] } 5 = exec recoverWorld 5 :=
  ⟨((command_dispatch collectWorld).1 (Or.inr ⟨"pitr", ["pitr.yaml"], rfl⟩)).1,
    ((command_dispatch recoverWorld).2 "pitr" ["pitr.yaml"] rfl).1,
    ((command_dispatch recoverWorld).2 "pitr" ["pitr.yaml"] rfl).2.2.2 [] 5⟩

/-- C10: on the collect command `main` never gets back from `runCollector`
and the process never exits with status 0; when it ends, it ends with status 1
right after a log line; and when a signal arrives before the timer of a wait
between cycles fires, the process logs the context's error and exits with
status 1 without starting another cycle. -/
theorem collect_never_succeeds (w : World) (h : mainCommand w.args = "collect") :
    (∀ k, (exec w k).pc ≠ .mainReturn ∧ (exec w k).pc ≠ .exited 0) ∧
    (∀ k code, (exec w k).pc = .exited code →
      code = 1 ∧ ∃ line rest, (exec w k).trace = .exit 1 :: .log line :: rest) ∧
    (∀ k ctx config n timerAt ts,
      (exec w k).pc = .selectWait ctx config n timerAt →
      w.signalAt = some ts → ts < timerAt → (exec w k).now < timerAt →
      (exec w (k + 1)).pc = .exited 1 ∧
      (exec w (k + 1)).trace =
        .exit 1 :: .log "ERROR: context canceled\n" ::
          .ctxDone n (max ts (exec w k).now) :: (exec w k).trace ∧
      ∀ j, exec w (k + 1 + j) = exec w (k + 1)) := by
  refine ⟨?_, ?_, ?_⟩
  · intro k
    have h1 := pcInv_exec w k
    have h2 := exitInv_exec w k
    generalize exec w k = s at h1 h2
    obtain ⟨pc, now, nextCtx, trace⟩ := s
    cases pc <;> simp_all [PcInv, ExitInv]
  · intro k code hk
    have h2 := exitInv_exec w k
    unfold ExitInv at h2
    rw [hk] at h2
    simp only at h2
    rcases h2 with ⟨_, h3⟩ | ⟨h3, h4⟩ | ⟨_, h3, _⟩
    · rw [h] at h3
      exact absurd h3 (by decide)
    · exact ⟨h3, h4⟩
    · exact absurd h h3
  · intro k ctx config n timerAt ts hk hs ht hnow
    have h1 := pcInv_exec w k
    unfold PcInv at h1
    rw [hk] at h1
    simp only at h1
    obtain ⟨hctx, _, _, _, _, _⟩ := h1
    subst hctx
    have hstep : exec w (k + 1) =
        State.mk (.exited 1) (max ts (exec w k).now) (exec w k).nextCtx
          (.exit 1 :: .log "ERROR: context canceled\n" ::
            .ctxDone n (max ts (exec w k).now) :: (exec w k).trace) := by
      show step w (exec w k) = _
      generalize exec w k = s at hk hnow
      obtain ⟨pc, now, nextCtx, trace⟩ := s
      simp only at hk hnow
      subst hk
      have hlt : max ts now < timerAt := max_lt ht hnow
      simp only [step, rootCtx_cause, hs, Option.map_some', hlt, true_or, if_true, Fatalln]
      rfl
    rw [hstep]
    exact ⟨rfl, rfl, fun j => by rw [← hstep]; exact exec_exited w (k + 1) 1 (by rw [hstep]) j⟩

/-- C10 at a sample world: the signal arrives during the first wait, the
process logs "context canceled" and exits with status 1 after one cycle. -/
theorem collect_never_succeeds_witness :
    (exec signalWorld 5).pc = .selectWait rootCtx (loadedConfig signalWorld) 0 61000000000 ∧
      (exec signalWorld 6).pc = .exited 1 ∧
      runStarts (exec signalWorld 6).trace = 1 ∧
      ∀ j, exec signalWorld (5 + 1 + j) = exec signalWorld (5 + 1) :=
  ⟨by decide,
    ((collect_never_succeeds signalWorld (by decide)).2.2 5 rootCtx (loadedConfig signalWorld) 0
      61000000000 30000000000 (by decide) rfl (by decide) (by decide)).1,
    by decide,
    ((collect_never_succeeds signalWorld (by decide)).2.2 5 rootCtx (loadedConfig signalWorld) 0
      61000000000 30000000000 (by decide) rfl (by decide) (by decide)).2.2⟩

end PitrHelper
